import Mathlib

/-! ARQ senders and receivers: Go-Back-N, Selective-Repeat and Stop-and-Wait.

A shallow embedding of `gbn.cc` and of the two programs in `selective-repeat.cpp`.

* The global variables of each program become the fields of a `State`.
* `uint32_t` values are natural numbers; additions that can leave the 32-bit
  range are reduced with `wrap32`.
* The ns-3 simulator is represented by the counter `nextUid` (the uid given to
  the next scheduled event) and by `pending`, the list of scheduled events that
  are neither cancelled nor run yet, each with the `seqNum` its closure captured.
  `Simulator::Schedule` appends to `pending`; `Simulator::Cancel` removes the
  event with the given uid (a no-op when it already ran or was cancelled).
* The sockets are represented by logs: `dataOut` lists the sequence numbers of the
  DATA frames handed to `senderSocket`, `ackOut` those of the ACK frames handed to
  `receiverSocket`, oldest first.
-/

/-- Reduction of a natural number to the range of `uint32_t`. -/
def wrap32 (n : Nat) : Nat := n % 4294967296

/-- The two tunable globals `windowSize` and `maxPackets` of a program. -/
structure Config where
  windowSize : Nat
  maxPackets : Nat

/-- The values the sources of Go-Back-N and Selective-Repeat give the two globals. -/
def defaultConfig : Config := { windowSize := 4, maxPackets := 15 }

/-- A decoded 5-byte frame: `buffer[0]` and the 32-bit number in `buffer[1..4]`. -/
structure Frame where
  type : Nat
  seqNum : Nat

/-- The events that drive a sender: the scheduled `SendWindow` call, the arrival of
an ACK frame, and the simulator running the timeout event with a given uid. -/
inductive Event where
  | sendWindow : Event
  | ack (seqNum : Nat) : Event
  | timeout (uid : Nat) : Event

/-! ## Go-Back-N (`gbn.cc`) -/

namespace GoBackN

/-- The globals of `gbn.cc`, the simulator's event list and the socket logs.
`rxLog` lists the sequence numbers of the DATA frames the receiver branch handled. -/
structure State where
  nextSeqNum : Nat
  baseSeqNum : Nat
  packetCount : Nat
  timers : Nat → Option Nat
  nextUid : Nat
  pending : List (Nat × Nat)
  dataOut : List Nat
  ackOut : List Nat
  rxLog : List Nat

/-- The state at program start. -/
def init : State :=
  { nextSeqNum := 0, baseSeqNum := 0, packetCount := 0, timers := fun _ => none,
    nextUid := 0, pending := [], dataOut := [], ackOut := [], rxLog := [] }

/-- The function `SendPacket(seqNum)`: send the DATA frame, schedule a timeout event and store its
id in `timers[seqNum]`. The previous id stored there, if any, is overwritten; the
event it names is not cancelled. -/
def SendPacket (seqNum : Nat) (s : State) : State :=
  { s with
    dataOut := s.dataOut ++ [seqNum]
    timers := fun k => if k = seqNum then some s.nextUid else s.timers k
    pending := s.pending ++ [(s.nextUid, seqNum)]
    nextUid := s.nextUid + 1 }

/-- The `for` loop of the timeout callback, from loop variable `i`. The guard has
`i < maxPackets`, so `maxPackets - i` iterations are enough; `fuel` counts them. -/
def timeoutLoop (cfg : Config) : Nat → Nat → State → State
  | 0, _, s => s
  | fuel + 1, i, s =>
    if i < wrap32 (s.baseSeqNum + cfg.windowSize) ∧ i < cfg.maxPackets then
      timeoutLoop cfg fuel (i + 1) (SendPacket i s)
    else s

/-- The timeout callback scheduled by `SendPacket`: reset `nextSeqNum` to
`baseSeqNum` and send the window again. The captured `seqNum` is not used. -/
def timeoutCallback (cfg : Config) (s : State) : State :=
  timeoutLoop cfg (cfg.maxPackets - s.baseSeqNum) s.baseSeqNum
    { s with nextSeqNum := s.baseSeqNum }

/-- The body of the `while` loop of `SendWindow`: `SendPacket(nextSeqNum); nextSeqNum++`.
The guard has `nextSeqNum < maxPackets`, so the increment stays in 32 bits. -/
def sendNext (s : State) : State :=
  { SendPacket s.nextSeqNum s with nextSeqNum := s.nextSeqNum + 1 }

/-- The `while` loop of `SendWindow`. The guard has `nextSeqNum < maxPackets`, so
`maxPackets - nextSeqNum` iterations are enough; `fuel` counts them. -/
def sendWindowLoop (cfg : Config) : Nat → State → State
  | 0, s => s
  | fuel + 1, s =>
    if s.nextSeqNum < wrap32 (s.baseSeqNum + cfg.windowSize) ∧ s.nextSeqNum < cfg.maxPackets then
      sendWindowLoop cfg fuel (sendNext s)
    else s

/-- The function `SendWindow()`. -/
def SendWindow (cfg : Config) (s : State) : State :=
  sendWindowLoop cfg (cfg.maxPackets - s.nextSeqNum) s

/-- The call `Simulator::Cancel(id)`. -/
def cancel (id : Nat) (s : State) : State :=
  { s with pending := s.pending.filter (fun e => e.1 ≠ id) }

/-- The body of the `while` loop of `ReceivePacket`, for one frame. -/
def handleFrame (cfg : Config) (s : State) (f : Frame) : State :=
  if f.type = 0 then
    { s with
      ackOut := s.ackOut ++ [f.seqNum]
      rxLog := s.rxLog ++ [f.seqNum]
      packetCount := wrap32 (s.packetCount + 1) }
  else if f.type = 1 then
    let s1 : State :=
      match s.timers f.seqNum with
      | some id =>
        { cancel id s with timers := fun k => if k = f.seqNum then none else s.timers k }
      | none => s
    if s1.baseSeqNum ≤ f.seqNum then
      let s2 : State := { s1 with baseSeqNum := wrap32 (f.seqNum + 1) }
      if s2.baseSeqNum < cfg.maxPackets then SendWindow cfg s2 else s2
    else s1
  else s

/-- The function `ReceivePacket(socket)`, given the frames queued on the socket. -/
def ReceivePacket (cfg : Config) (frames : List Frame) (s : State) : State :=
  frames.foldl (handleFrame cfg) s

/-- The simulator runs the event `uid`: nothing happens unless it is pending;
otherwise it leaves the event list and its callback runs. -/
def fire (cfg : Config) (uid : Nat) (s : State) : State :=
  match s.pending.find? (fun e => e.1 = uid) with
  | some _ => timeoutCallback cfg (cancel uid s)
  | none => s

/-- One sender event. -/
def step (cfg : Config) (s : State) : Event → State
  | Event.sendWindow => SendWindow cfg s
  | Event.ack a => ReceivePacket cfg [{ type := 1, seqNum := a }] s
  | Event.timeout uid => fire cfg uid s

/-- The state after a sequence of sender events, from program start. -/
def run (cfg : Config) (evs : List Event) : State :=
  evs.foldl (step cfg) init

/-- The state after the timer cancellation of the ACK branch. -/
def afterCancel (s : State) (a : Nat) : State :=
  match s.timers a with
  | some id => { cancel id s with timers := fun k => if k = a then none else s.timers k }
  | none => s

/-- The state after `baseSeqNum = ackNum + 1`. -/
def advanceBase (s : State) (a : Nat) : State :=
  { afterCancel s a with baseSeqNum := wrap32 (a + 1) }

/-- The part of the window invariant that the Go-Back-N sender keeps. -/
def WindowInv (cfg : Config) (s : State) : Prop :=
  s.nextSeqNum ≤ s.baseSeqNum + cfg.windowSize ∧ s.nextSeqNum ≤ cfg.maxPackets ∧
    s.baseSeqNum ≤ cfg.maxPackets ∧
    (s.baseSeqNum ≤ s.nextSeqNum ∨ s.baseSeqNum = cfg.maxPackets)

/-- The end of the range the timeout callback sends: the loop runs while
`i < baseSeqNum + windowSize && i < maxPackets`. -/
def burstEnd (cfg : Config) (s : State) : Nat :=
  min (wrap32 (s.baseSeqNum + cfg.windowSize)) cfg.maxPackets

/-- Event ids in use are below the id the simulator hands out next. -/
def Fresh (s : State) : Prop :=
  (∀ e ∈ s.pending, e.1 < s.nextUid) ∧ (∀ k id, s.timers k = some id → id < s.nextUid)

/-- The events of the two endpoints joined by a channel that keeps the order of the
frames and may drop them: besides the sender's own events, the channel hands the oldest
DATA frame in flight to the receiver or drops it, and likewise for the oldest ACK frame
and the sender. -/
inductive SysEvent where
  | sendWindow : SysEvent
  | timeout (uid : Nat) : SysEvent
  | deliverData : SysEvent
  | dropData : SysEvent
  | deliverAck : SysEvent
  | dropAck : SysEvent

/-- The program state with the channel: `dataPos` frames of `dataOut` and `ackPos`
frames of `ackOut` have left the channel (delivered or dropped); the rest is in flight. -/
structure System where
  st : State
  dataPos : Nat
  ackPos : Nat

/-- One event of the system. Delivery runs `ReceivePacket` on the frame. -/
def sysStep (cfg : Config) (y : System) : SysEvent → System
  | SysEvent.sendWindow => { y with st := SendWindow cfg y.st }
  | SysEvent.timeout uid => { y with st := fire cfg uid y.st }
  | SysEvent.deliverData =>
    match y.st.dataOut[y.dataPos]? with
    | some q =>
      { y with st := ReceivePacket cfg [{ type := 0, seqNum := q }] y.st
               dataPos := y.dataPos + 1 }
    | none => y
  | SysEvent.dropData =>
    match y.st.dataOut[y.dataPos]? with
    | some _ => { y with dataPos := y.dataPos + 1 }
    | none => y
  | SysEvent.deliverAck =>
    match y.st.ackOut[y.ackPos]? with
    | some a =>
      { y with st := ReceivePacket cfg [{ type := 1, seqNum := a }] y.st
               ackPos := y.ackPos + 1 }
    | none => y
  | SysEvent.dropAck =>
    match y.st.ackOut[y.ackPos]? with
    | some _ => { y with ackPos := y.ackPos + 1 }
    | none => y

/-- The system after a sequence of events, from program start with an empty channel. -/
def sysRun (cfg : Config) (evs : List SysEvent) : System :=
  evs.foldl (sysStep cfg) { st := init, dataPos := 0, ackPos := 0 }

/-- What the system keeps true of its logs: DATA frames carry sequence numbers below
`maxPackets`, the receiver handled only frames that were sent, acknowledged only frames
it handled, and `baseSeqNum`, once it moved, is one past a sequence number the receiver
handled. -/
def SysInv (cfg : Config) (y : System) : Prop :=
  (∀ x ∈ y.st.dataOut, x < cfg.maxPackets) ∧
  (∀ x ∈ y.st.rxLog, x ∈ y.st.dataOut) ∧
  (∀ x ∈ y.st.ackOut, x ∈ y.st.rxLog) ∧
  (y.st.baseSeqNum = 0 ∨ y.st.baseSeqNum - 1 ∈ y.st.rxLog)

end GoBackN

/-! ## Selective-Repeat (`selective-repeat.cpp`) -/

namespace SelectiveRepeat

/-- The globals of `selective-repeat.cpp`, the simulator's event list and the socket
logs. `receivedBuffer` and `ackReceived` are only accessed with `operator[]`, for which
an absent key reads as `false`; they are functions to `Bool`. -/
structure State where
  baseSeq : Nat
  nextSeq : Nat
  receivedBuffer : Nat → Bool
  ackReceived : Nat → Bool
  timers : Nat → Option Nat
  nextUid : Nat
  pending : List (Nat × Nat)
  dataOut : List Nat
  ackOut : List Nat

/-- The state at program start. -/
def init : State :=
  { baseSeq := 0, nextSeq := 0, receivedBuffer := fun _ => false,
    ackReceived := fun _ => false, timers := fun _ => none,
    nextUid := 0, pending := [], dataOut := [], ackOut := [] }

/-- The function `SendPacket(seqNum)`: send the DATA frame, schedule a timeout event that will call
`SendPacket(seqNum)` again, and store its id in `timers[seqNum]`. -/
def SendPacket (seqNum : Nat) (s : State) : State :=
  { s with
    dataOut := s.dataOut ++ [seqNum]
    timers := fun k => if k = seqNum then some s.nextUid else s.timers k
    pending := s.pending ++ [(s.nextUid, seqNum)]
    nextUid := s.nextUid + 1 }

/-- The body of the `while` loop of `SendWindow`: `SendPacket(nextSeq); nextSeq++`.
The guard has `nextSeq < maxPackets`, so the increment stays in 32 bits. -/
def sendNext (s : State) : State :=
  { SendPacket s.nextSeq s with nextSeq := s.nextSeq + 1 }

/-- The `while` loop of `SendWindow`. The guard has `nextSeq < maxPackets`, so
`maxPackets - nextSeq` iterations are enough; `fuel` counts them. -/
def sendWindowLoop (cfg : Config) : Nat → State → State
  | 0, s => s
  | fuel + 1, s =>
    if s.nextSeq < wrap32 (s.baseSeq + cfg.windowSize) ∧ s.nextSeq < cfg.maxPackets then
      sendWindowLoop cfg fuel (sendNext s)
    else s

/-- The function `SendWindow()`. -/
def SendWindow (cfg : Config) (s : State) : State :=
  sendWindowLoop cfg (cfg.maxPackets - s.nextSeq) s

/-- The call `Simulator::Cancel(id)`. -/
def cancel (id : Nat) (s : State) : State :=
  { s with pending := s.pending.filter (fun e => e.1 ≠ id) }

/-- The body of the slide loop: `baseSeq++`. The guard has `baseSeq < maxPackets`, so
the increment stays in 32 bits. -/
def slideNext (s : State) : State :=
  { s with baseSeq := s.baseSeq + 1 }

/-- The loop `while (ackReceived[baseSeq] && baseSeq < maxPackets) baseSeq++`. The
guard has `baseSeq < maxPackets`, so `maxPackets - baseSeq` iterations are enough. -/
def slideLoop (cfg : Config) : Nat → State → State
  | 0, s => s
  | fuel + 1, s =>
    if s.ackReceived s.baseSeq = true ∧ s.baseSeq < cfg.maxPackets then
      slideLoop cfg fuel (slideNext s)
    else s

/-- The body of the `while` loop of `ReceivePacket`, for one frame. -/
def handleFrame (cfg : Config) (s : State) (f : Frame) : State :=
  if f.type = 0 then
    { s with
      receivedBuffer := fun k => if k = f.seqNum then true else s.receivedBuffer k
      ackOut := s.ackOut ++ [f.seqNum] }
  else if f.type = 1 then
    let s1 : State :=
      { s with ackReceived := fun k => if k = f.seqNum then true else s.ackReceived k }
    let s2 : State :=
      match s1.timers f.seqNum with
      | some id =>
        { cancel id s1 with timers := fun k => if k = f.seqNum then none else s1.timers k }
      | none => s1
    if f.seqNum = s2.baseSeq then
      SendWindow cfg (slideLoop cfg (cfg.maxPackets - s2.baseSeq) s2)
    else s2
  else s

/-- The function `ReceivePacket(socket)`, given the frames queued on the socket. -/
def ReceivePacket (cfg : Config) (frames : List Frame) (s : State) : State :=
  frames.foldl (handleFrame cfg) s

/-- The simulator runs the event `uid`: nothing happens unless it is pending;
otherwise it leaves the event list and its callback, `SendPacket` of the captured
sequence number, runs. -/
def fire (uid : Nat) (s : State) : State :=
  match s.pending.find? (fun e => e.1 = uid) with
  | some e => SendPacket e.2 (cancel uid s)
  | none => s

/-- One sender event. -/
def step (cfg : Config) (s : State) : Event → State
  | Event.sendWindow => SendWindow cfg s
  | Event.ack a => ReceivePacket cfg [{ type := 1, seqNum := a }] s
  | Event.timeout uid => fire uid s

/-- The state after a sequence of sender events, from program start. -/
def run (cfg : Config) (evs : List Event) : State :=
  evs.foldl (step cfg) init

/-- The state between the timer cancellation and the window slide of the ACK branch. -/
def afterCancel (s : State) (a : Nat) : State :=
  match s.timers a with
  | some id =>
    { cancel id { s with ackReceived := fun k => if k = a then true else s.ackReceived k } with
      timers := fun k => if k = a then none else s.timers k }
  | none => { s with ackReceived := fun k => if k = a then true else s.ackReceived k }

/-- The window invariant of the Selective-Repeat sender. -/
def WindowInv (cfg : Config) (s : State) : Prop :=
  s.baseSeq ≤ s.nextSeq ∧ s.nextSeq ≤ s.baseSeq + cfg.windowSize ∧
    s.nextSeq ≤ cfg.maxPackets

/-- Every sequence number below `baseSeq` is acknowledged. -/
def AckedBelowBase (s : State) : Prop :=
  ∀ i, i < s.baseSeq → s.ackReceived i = true

/-- Event ids in use are below the id the simulator hands out next. -/
def Fresh (s : State) : Prop :=
  (∀ e ∈ s.pending, e.1 < s.nextUid) ∧ (∀ k id, s.timers k = some id → id < s.nextUid)

/-- The pending timeout events carry pairwise different sequence numbers, all of them
sent already. -/
def OneTimer (s : State) : Prop :=
  (s.pending.map Prod.snd).Nodup ∧ ∀ e ∈ s.pending, e.2 < s.nextSeq

/-- The end of the range `SendWindow` fills: its loop runs while
`nextSeq < baseSeq + windowSize && nextSeq < maxPackets`. -/
def fillEnd (cfg : Config) (s : State) : Nat :=
  min (wrap32 (s.baseSeq + cfg.windowSize)) cfg.maxPackets

/-- Every DATA frame sent, and every pending timeout event, has a sequence number below
`maxPackets`. -/
def InRange (cfg : Config) (s : State) : Prop :=
  (∀ x ∈ s.dataOut, x < cfg.maxPackets) ∧ (∀ e ∈ s.pending, e.2 < cfg.maxPackets)

end SelectiveRepeat

/-! ## Stop-and-Wait (`stopwaitfinal (1).cc`, the second program of `selective-repeat.cpp`) -/

namespace StopAndWait

/-- The globals of the Stop-and-Wait program, the simulator and the socket logs. Frames
are one byte, the type, and carry no sequence number. `scheduled` counts the `SendPacket`
events scheduled and not run yet, `stopped` records `Simulator::Stop`; `dataOut` and
`ackOut` list, for each DATA and ACK frame sent, the `seqNum` logged with it, and
`retransmissions` counts the runs of the timeout branch of `SendPacket`. -/
structure State where
  packetCount : Nat
  seqNum : Nat
  ackReceived : Bool
  scheduled : Nat
  stopped : Bool
  dataOut : List Nat
  ackOut : List Nat
  retransmissions : Nat
  deriving DecidableEq

/-- The state at program start, with the first `SendPacket` scheduled by `main`. -/
def init : State :=
  { packetCount := 0, seqNum := 0, ackReceived := true, scheduled := 1, stopped := false,
    dataOut := [], ackOut := [], retransmissions := 0 }

/-- The function `SendPacket()`: stop when `packetCount >= maxPackets`; otherwise send a
DATA frame, as a new one when `ackReceived` and as a retransmission when not, and
schedule `SendPacket` again. -/
def SendPacket (maxPackets : Nat) (s : State) : State :=
  if maxPackets ≤ s.packetCount then { s with stopped := true }
  else if s.ackReceived = true then
    { s with
      dataOut := s.dataOut ++ [s.seqNum]
      ackReceived := false
      scheduled := s.scheduled + 1 }
  else
    { s with
      retransmissions := s.retransmissions + 1
      dataOut := s.dataOut ++ [s.seqNum]
      scheduled := s.scheduled + 1 }

/-- The body of the `while` loop of `ReceivePacket`, for one frame of the given type. -/
def handleFrame (s : State) (type : Nat) : State :=
  if type = 0 then
    { s with
      ackOut := s.ackOut ++ [s.seqNum]
      seqNum := wrap32 (s.seqNum + 1)
      packetCount := wrap32 (s.packetCount + 1) }
  else if type = 1 then { s with ackReceived := true }
  else s

/-- The function `ReceivePacket(socket)`, given the types of the frames queued. -/
def ReceivePacket (frames : List Nat) (s : State) : State :=
  frames.foldl handleFrame s

/-- The simulator runs a scheduled `SendPacket` event, unless it was stopped or none is
scheduled. -/
def fire (maxPackets : Nat) (s : State) : State :=
  if s.stopped = false ∧ 0 < s.scheduled then
    SendPacket maxPackets { s with scheduled := s.scheduled - 1 }
  else s

/-- The events of the two endpoints joined by a channel that keeps the order of the
frames and may drop them. -/
inductive SysEvent where
  | timer : SysEvent
  | deliverData : SysEvent
  | dropData : SysEvent
  | deliverAck : SysEvent
  | dropAck : SysEvent

/-- The program state with the channel: `dataPos` DATA frames and `ackPos` ACK frames
have left the channel (delivered or dropped); the rest is in flight. -/
structure System where
  st : State
  dataPos : Nat
  ackPos : Nat
  deriving DecidableEq

/-- One event of the system. Delivery runs `ReceivePacket` on the frame. -/
def sysStep (maxPackets : Nat) (y : System) : SysEvent → System
  | SysEvent.timer => { y with st := fire maxPackets y.st }
  | SysEvent.deliverData =>
    if y.dataPos < y.st.dataOut.length then
      { y with st := ReceivePacket [0] y.st, dataPos := y.dataPos + 1 }
    else y
  | SysEvent.dropData =>
    if y.dataPos < y.st.dataOut.length then { y with dataPos := y.dataPos + 1 } else y
  | SysEvent.deliverAck =>
    if y.ackPos < y.st.ackOut.length then
      { y with st := ReceivePacket [1] y.st, ackPos := y.ackPos + 1 }
    else y
  | SysEvent.dropAck =>
    if y.ackPos < y.st.ackOut.length then { y with ackPos := y.ackPos + 1 } else y

/-- The system after a sequence of events, from program start with an empty channel. -/
def sysRun (maxPackets : Nat) (evs : List SysEvent) : System :=
  evs.foldl (sysStep maxPackets) { st := init, dataPos := 0, ackPos := 0 }

/-- The schedule of `n` rounds without loss: the timer fires, the DATA frame is
delivered, and its ACK is delivered before the timer fires again. -/
def losslessEvents : Nat → List SysEvent
  | 0 => []
  | n + 1 => losslessEvents n ++ [SysEvent.timer, SysEvent.deliverData, SysEvent.deliverAck]

/-- The system after `n` rounds without loss, while `n ≤ maxPackets`. -/
def afterRounds (n : Nat) : System :=
  { st :=
      { packetCount := n, seqNum := n, ackReceived := true, scheduled := 1, stopped := false,
        dataOut := List.range n, ackOut := List.range n, retransmissions := 0 }
    dataPos := n
    ackPos := n }

end StopAndWait

/-! ## Frame codec of Go-Back-N and Selective-Repeat -/

/-- The byte order of the host: `memcpy` copies the four bytes of a `uint32_t` in the
order the host stores them. -/
inductive ByteOrder where
  | little : ByteOrder
  | big : ByteOrder

/-- The four bytes of a `uint32_t` in memory. -/
def u32Bytes (o : ByteOrder) (n : Nat) : List Nat :=
  match o with
  | ByteOrder.little => [n % 256, n / 256 % 256, n / 65536 % 256, n / 16777216 % 256]
  | ByteOrder.big => [n / 16777216 % 256, n / 65536 % 256, n / 256 % 256, n % 256]

/-- The `uint32_t` whose four bytes in memory are `b0 b1 b2 b3`. -/
def u32OfBytes (o : ByteOrder) (b0 b1 b2 b3 : Nat) : Nat :=
  match o with
  | ByteOrder.little => b0 + 256 * b1 + 65536 * b2 + 16777216 * b3
  | ByteOrder.big => b3 + 256 * b2 + 65536 * b1 + 16777216 * b0

/-- The buffer built in `SendPacket` (kind 0) and in the receiver branch of
`ReceivePacket` (kind 1): `buffer[0] = kind; memcpy(&buffer[1], &seqNum, 4)`. -/
def encodeFrame (o : ByteOrder) (kind seqNum : Nat) : List Nat :=
  kind :: u32Bytes o seqNum

/-- The decoding at the head of `ReceivePacket`: `CopyData(buffer, 5)`,
`type = buffer[0]`, `memcpy(&seqNum, &buffer[1], 4)`. A packet shorter than five bytes
leaves the buffer undetermined and has no decoding here. -/
def decodeFrame (o : ByteOrder) (buf : List Nat) : Option Frame :=
  match buf with
  | t :: b0 :: b1 :: b2 :: b3 :: _ => some { type := t, seqNum := u32OfBytes o b0 b1 b2 b3 }
  | _ => none

/-! ## Selective-Repeat: the window -/

namespace SelectiveRepeat

theorem sr_wrap32_le (n : Nat) : wrap32 n ≤ n := Nat.mod_le _ _

theorem sr_wrap32_small {n : Nat} (h : n < 4294967296) : wrap32 n = n := Nat.mod_eq_of_lt h

theorem sr_run_snoc (cfg : Config) (evs : List Event) (e : Event) :
    run cfg (evs ++ [e]) = step cfg (run cfg evs) e := by
  simp [run, List.foldl_append]

/-- What `sendWindowLoop` does to the window: `baseSeq` and `ackReceived` are kept,
`nextSeq` only grows, stays below the bound of the guard when it moves, and with enough
fuel the guard is false at the end. -/
theorem sr_sendWindowLoop_window (cfg : Config) (fuel : Nat) (s : State) :
    (sendWindowLoop cfg fuel s).baseSeq = s.baseSeq ∧
    (sendWindowLoop cfg fuel s).ackReceived = s.ackReceived ∧
    s.nextSeq ≤ (sendWindowLoop cfg fuel s).nextSeq ∧
    ((sendWindowLoop cfg fuel s).nextSeq = s.nextSeq ∨
      ((sendWindowLoop cfg fuel s).nextSeq ≤ wrap32 (s.baseSeq + cfg.windowSize) ∧
        (sendWindowLoop cfg fuel s).nextSeq ≤ cfg.maxPackets)) ∧
    (cfg.maxPackets - s.nextSeq ≤ fuel →
      ¬ ((sendWindowLoop cfg fuel s).nextSeq < wrap32 (s.baseSeq + cfg.windowSize) ∧
          (sendWindowLoop cfg fuel s).nextSeq < cfg.maxPackets)) := by
  induction fuel generalizing s with
  | zero =>
    refine ⟨rfl, rfl, le_refl _, Or.inl rfl, ?_⟩
    intro h
    show ¬ (s.nextSeq < _ ∧ s.nextSeq < _)
    omega
  | succ n ih =>
    by_cases hg : s.nextSeq < wrap32 (s.baseSeq + cfg.windowSize) ∧ s.nextSeq < cfg.maxPackets
    · have e : sendWindowLoop cfg (n + 1) s = sendWindowLoop cfg n (sendNext s) := by
        simp only [sendWindowLoop, if_pos hg]
      have hb : (sendNext s).baseSeq = s.baseSeq := rfl
      have hn : (sendNext s).nextSeq = s.nextSeq + 1 := rfl
      have ha : (sendNext s).ackReceived = s.ackReceived := rfl
      obtain ⟨h1, h2, h3, h4, h5⟩ := ih (sendNext s)
      rw [e]
      rw [hb] at h1 h4 h5
      rw [hn] at h3 h4 h5
      rw [ha] at h2
      refine ⟨h1, h2, by omega, ?_, ?_⟩
      · right
        rcases h4 with h4 | h4
        · omega
        · exact h4
      · intro hf
        exact h5 (by omega)
    · have e : sendWindowLoop cfg (n + 1) s = s := by
        simp only [sendWindowLoop, if_neg hg]
      rw [e]
      exact ⟨rfl, rfl, le_refl _, Or.inl rfl, fun _ => hg⟩

/-- What `slideLoop` does: only `baseSeq` changes; it grows, stays at most
`maxPackets` when it moves, and passes acknowledged sequence numbers only. -/
theorem sr_slideLoop_window (cfg : Config) (fuel : Nat) (s : State) :
    (slideLoop cfg fuel s).nextSeq = s.nextSeq ∧
    (slideLoop cfg fuel s).ackReceived = s.ackReceived ∧
    s.baseSeq ≤ (slideLoop cfg fuel s).baseSeq ∧
    ((slideLoop cfg fuel s).baseSeq = s.baseSeq ∨
      (slideLoop cfg fuel s).baseSeq ≤ cfg.maxPackets) ∧
    (∀ i, s.baseSeq ≤ i → i < (slideLoop cfg fuel s).baseSeq → s.ackReceived i = true) := by
  induction fuel generalizing s with
  | zero =>
    refine ⟨rfl, rfl, le_refl _, Or.inl rfl, ?_⟩
    intro i h1 h2
    have h3 : i < s.baseSeq := h2
    omega
  | succ n ih =>
    by_cases hg : s.ackReceived s.baseSeq = true ∧ s.baseSeq < cfg.maxPackets
    · have e : slideLoop cfg (n + 1) s = slideLoop cfg n (slideNext s) := by
        simp only [slideLoop, if_pos hg]
      have hb : (slideNext s).baseSeq = s.baseSeq + 1 := rfl
      have hn : (slideNext s).nextSeq = s.nextSeq := rfl
      have ha : (slideNext s).ackReceived = s.ackReceived := rfl
      obtain ⟨h1, h2, h3, h4, h5⟩ := ih (slideNext s)
      rw [e]
      rw [hb] at h3 h4 h5
      rw [hn] at h1
      rw [ha] at h2 h5
      refine ⟨h1, h2, by omega, ?_, ?_⟩
      · right
        rcases h4 with h4 | h4
        · omega
        · exact h4
      · intro i hi1 hi2
        rcases Nat.eq_or_lt_of_le hi1 with h | h
        · rw [← h]; exact hg.1
        · exact h5 i h hi2
    · have e : slideLoop cfg (n + 1) s = s := by
        simp only [slideLoop, if_neg hg]
      rw [e]
      refine ⟨rfl, rfl, le_refl _, Or.inl rfl, ?_⟩
      intro i h1 h2
      omega

theorem sr_afterCancel_window (s : State) (a : Nat) :
    (afterCancel s a).baseSeq = s.baseSeq ∧ (afterCancel s a).nextSeq = s.nextSeq ∧
    (afterCancel s a).ackReceived = (fun k => if k = a then true else s.ackReceived k) := by
  unfold afterCancel
  cases s.timers a <;> simp [cancel]

theorem sr_step_ack_eq (cfg : Config) (s : State) (a : Nat) :
    step cfg s (Event.ack a) =
      if a = (afterCancel s a).baseSeq then
        SendWindow cfg (slideLoop cfg (cfg.maxPackets - (afterCancel s a).baseSeq) (afterCancel s a))
      else afterCancel s a := by
  simp only [step, ReceivePacket, List.foldl, handleFrame, afterCancel]
  cases s.timers a <;> simp

theorem sr_fire_window (uid : Nat) (s : State) :
    (fire uid s).baseSeq = s.baseSeq ∧ (fire uid s).nextSeq = s.nextSeq ∧
    (fire uid s).ackReceived = s.ackReceived := by
  unfold fire
  cases s.pending.find? (fun e => e.1 = uid) <;> simp [SendPacket, cancel]

theorem sr_step_windowInv (cfg : Config) (hc : cfg.maxPackets + cfg.windowSize < 4294967296)
    (s : State) (e : Event) (h : WindowInv cfg s) : WindowInv cfg (step cfg s e) := by
  obtain ⟨h1, h2, h3⟩ := h
  cases e with
  | sendWindow =>
    obtain ⟨g1, -, g3, g4, -⟩ := sr_sendWindowLoop_window cfg (cfg.maxPackets - s.nextSeq) s
    have hw := sr_wrap32_le (s.baseSeq + cfg.windowSize)
    simp only [step, SendWindow, WindowInv]
    omega
  | ack a =>
    rw [sr_step_ack_eq]
    obtain ⟨c1, c2, -⟩ := sr_afterCancel_window s a
    split_ifs with ha
    · obtain ⟨l1, -, l3, l4, -⟩ :=
        sr_slideLoop_window cfg (cfg.maxPackets - (afterCancel s a).baseSeq) (afterCancel s a)
      obtain ⟨g1, -, g3, g4, g5⟩ := sr_sendWindowLoop_window cfg
        (cfg.maxPackets - (slideLoop cfg (cfg.maxPackets - (afterCancel s a).baseSeq)
          (afterCancel s a)).nextSeq)
        (slideLoop cfg (cfg.maxPackets - (afterCancel s a).baseSeq) (afterCancel s a))
      have g5 := g5 (le_refl _)
      have hb : (slideLoop cfg (cfg.maxPackets - (afterCancel s a).baseSeq)
          (afterCancel s a)).baseSeq ≤ cfg.maxPackets := by omega
      have hw := sr_wrap32_small (n := (slideLoop cfg (cfg.maxPackets - (afterCancel s a).baseSeq)
          (afterCancel s a)).baseSeq + cfg.windowSize) (by omega)
      simp only [SendWindow, WindowInv]
      rw [hw] at g4 g5
      omega
    · simp only [WindowInv]
      omega
  | timeout uid =>
    obtain ⟨f1, f2, -⟩ := sr_fire_window uid s
    simp only [step, WindowInv]
    omega

theorem sr_run_windowInv (cfg : Config) (hc : cfg.maxPackets + cfg.windowSize < 4294967296)
    (evs : List Event) : WindowInv cfg (run cfg evs) := by
  induction evs using List.reverseRecOn with
  | nil => simp [run, init, WindowInv]
  | append_singleton l e ih =>
    rw [sr_run_snoc]
    exact sr_step_windowInv cfg hc _ e ih

/-- C1. Selective-Repeat window invariant: from the initial state, after any finite
sequence of `SendWindow` calls, ACK frames with any sequence number and timeout
firings, `baseSeq ≤ nextSeq ≤ baseSeq + windowSize` and `nextSeq ≤ maxPackets`
(for a configuration whose `maxPackets + windowSize` fits in 32 bits, as 15 + 4 does). -/
theorem sr_window_invariant (cfg : Config)
    (hc : cfg.maxPackets + cfg.windowSize < 4294967296) (evs : List Event) :
    (run cfg evs).baseSeq ≤ (run cfg evs).nextSeq ∧
    (run cfg evs).nextSeq ≤ (run cfg evs).baseSeq + cfg.windowSize ∧
    (run cfg evs).nextSeq ≤ cfg.maxPackets :=
  sr_run_windowInv cfg hc evs

theorem sr_window_invariant_witness :
    defaultConfig.maxPackets + defaultConfig.windowSize < 4294967296 ∧
    (run defaultConfig [Event.sendWindow, Event.ack 9, Event.ack 0, Event.timeout 1]).baseSeq
      ≤ (run defaultConfig [Event.sendWindow, Event.ack 9, Event.ack 0, Event.timeout 1]).nextSeq ∧
    (run defaultConfig [Event.sendWindow, Event.ack 9, Event.ack 0, Event.timeout 1]).nextSeq
      ≤ (run defaultConfig [Event.sendWindow, Event.ack 9, Event.ack 0, Event.timeout 1]).baseSeq
        + defaultConfig.windowSize ∧
    (run defaultConfig [Event.sendWindow, Event.ack 9, Event.ack 0, Event.timeout 1]).nextSeq
      ≤ defaultConfig.maxPackets :=
  ⟨by decide, sr_window_invariant defaultConfig (by decide) _⟩

theorem sr_step_ackReceived_mono (cfg : Config) (s : State) (e : Event) (i : Nat)
    (h : s.ackReceived i = true) : (step cfg s e).ackReceived i = true := by
  cases e with
  | sendWindow =>
    obtain ⟨-, g2, -⟩ := sr_sendWindowLoop_window cfg (cfg.maxPackets - s.nextSeq) s
    simp only [step, SendWindow, g2, h]
  | ack a =>
    rw [sr_step_ack_eq]
    obtain ⟨-, -, c3⟩ := sr_afterCancel_window s a
    have hA : (afterCancel s a).ackReceived i = true := by
      rw [c3]
      by_cases hi : i = a <;> simp [hi, h]
    split_ifs with ha
    · obtain ⟨-, l2, -⟩ :=
        sr_slideLoop_window cfg (cfg.maxPackets - (afterCancel s a).baseSeq) (afterCancel s a)
      obtain ⟨-, g2, -⟩ := sr_sendWindowLoop_window cfg
        (cfg.maxPackets - (slideLoop cfg (cfg.maxPackets - (afterCancel s a).baseSeq)
          (afterCancel s a)).nextSeq)
        (slideLoop cfg (cfg.maxPackets - (afterCancel s a).baseSeq) (afterCancel s a))
      simp only [SendWindow, g2, l2, hA]
    · exact hA
  | timeout uid =>
    obtain ⟨-, -, f3⟩ := sr_fire_window uid s
    simp only [step, f3, h]

theorem sr_step_ackedBelowBase (cfg : Config) (s : State) (e : Event)
    (h : AckedBelowBase s) : AckedBelowBase (step cfg s e) := by
  intro i hi
  by_cases hlt : i < s.baseSeq
  · exact sr_step_ackReceived_mono cfg s e i (h i hlt)
  · cases e with
    | sendWindow =>
      obtain ⟨g1, -, -⟩ := sr_sendWindowLoop_window cfg (cfg.maxPackets - s.nextSeq) s
      simp only [step, SendWindow, g1] at hi
      exact absurd hi hlt
    | ack a =>
      rw [sr_step_ack_eq] at hi ⊢
      obtain ⟨c1, -, c3⟩ := sr_afterCancel_window s a
      split_ifs at hi ⊢ with ha
      · obtain ⟨-, l2, -, -, l5⟩ :=
          sr_slideLoop_window cfg (cfg.maxPackets - (afterCancel s a).baseSeq) (afterCancel s a)
        obtain ⟨g1, g2, -⟩ := sr_sendWindowLoop_window cfg
          (cfg.maxPackets - (slideLoop cfg (cfg.maxPackets - (afterCancel s a).baseSeq)
            (afterCancel s a)).nextSeq)
          (slideLoop cfg (cfg.maxPackets - (afterCancel s a).baseSeq) (afterCancel s a))
        simp only [SendWindow, g1] at hi
        simp only [SendWindow, g2, l2]
        exact l5 i (by omega) hi
      · rw [c1] at hi
        exact absurd hi hlt
    | timeout uid =>
      obtain ⟨f1, -, -⟩ := sr_fire_window uid s
      simp only [step, f1] at hi
      exact absurd hi hlt

theorem sr_run_ackedBelowBase (cfg : Config) (evs : List Event) :
    AckedBelowBase (run cfg evs) := by
  induction evs using List.reverseRecOn with
  | nil =>
    intro i hi
    simp [run, init] at hi
  | append_singleton l e ih =>
    rw [sr_run_snoc]
    exact sr_step_ackedBelowBase cfg _ e ih

/-- C3. No premature completion in Selective-Repeat: in every reachable state of the
sender every sequence number below `baseSeq` has `ackReceived` true; hence
`baseSeq = maxPackets` holds only when every sequence number in `[0, maxPackets)` has
been acknowledged. -/
theorem sr_no_premature_completion (cfg : Config) (evs : List Event) :
    (∀ i, i < (run cfg evs).baseSeq → (run cfg evs).ackReceived i = true) ∧
    ((run cfg evs).baseSeq = cfg.maxPackets →
      ∀ i, i < cfg.maxPackets → (run cfg evs).ackReceived i = true) := by
  refine ⟨sr_run_ackedBelowBase cfg evs, ?_⟩
  intro hb i hi
  exact sr_run_ackedBelowBase cfg evs i (by omega)

theorem sr_no_premature_completion_witness :
    (1 < (run defaultConfig [Event.sendWindow, Event.ack 1, Event.ack 0]).baseSeq ∧
      (run defaultConfig [Event.sendWindow, Event.ack 1, Event.ack 0]).ackReceived 1 = true) ∧
    ((run { windowSize := 4, maxPackets := 2 }
        [Event.sendWindow, Event.ack 1, Event.ack 0]).baseSeq = 2 ∧
      (run { windowSize := 4, maxPackets := 2 }
        [Event.sendWindow, Event.ack 1, Event.ack 0]).ackReceived 1 = true) :=
  ⟨⟨by decide, (sr_no_premature_completion defaultConfig
      [Event.sendWindow, Event.ack 1, Event.ack 0]).1 1 (by decide)⟩,
   ⟨by decide, (sr_no_premature_completion { windowSize := 4, maxPackets := 2 }
      [Event.sendWindow, Event.ack 1, Event.ack 0]).2 (by decide) 1 (by decide)⟩⟩

/-! ## Selective-Repeat: timeouts and duplicate ACKs -/

/-- C7. Selective-Repeat isolation: when the timeout event `uid` of sequence number `k`
fires, the handler sends exactly one DATA frame, with sequence number `k`, re-arms the
timer of `k` with a new event, and leaves `baseSeq`, `nextSeq`, the acknowledged set,
the timer handle of every other sequence number and every other pending event
unchanged. -/
theorem sr_timeout_isolation (s : State) (uid k : Nat)
    (h : s.pending.find? (fun e => e.1 = uid) = some (uid, k)) :
    (fire uid s).dataOut = s.dataOut ++ [k] ∧
    (fire uid s).timers k = some s.nextUid ∧
    (fire uid s).pending = s.pending.filter (fun e => e.1 ≠ uid) ++ [(s.nextUid, k)] ∧
    (fire uid s).baseSeq = s.baseSeq ∧
    (fire uid s).nextSeq = s.nextSeq ∧
    (fire uid s).ackReceived = s.ackReceived ∧
    (∀ j, j ≠ k → (fire uid s).timers j = s.timers j) ∧
    (∀ e : Nat × Nat, e ∈ s.pending → e.1 ≠ uid → e ∈ (fire uid s).pending) := by
  have e1 : fire uid s = SendPacket k (cancel uid s) := by
    simp only [fire, h]
  rw [e1]
  refine ⟨rfl, ?_, rfl, rfl, rfl, rfl, ?_, ?_⟩
  · simp [SendPacket, cancel]
  · intro j hj
    simp [SendPacket, cancel, hj]
  · intro e he hne
    simp only [SendPacket, cancel, List.mem_append, List.mem_filter, List.mem_singleton]
    left
    exact ⟨he, by simpa using hne⟩

theorem sr_timeout_isolation_witness :
    (run defaultConfig [Event.sendWindow]).pending.find? (fun e => e.1 = 1) = some (1, 1) ∧
    (fire 1 (run defaultConfig [Event.sendWindow])).dataOut
      = (run defaultConfig [Event.sendWindow]).dataOut ++ [1] ∧
    (fire 1 (run defaultConfig [Event.sendWindow])).pending
      = [(0, 0), (2, 2), (3, 3), (4, 1)] :=
  ⟨by decide,
   (sr_timeout_isolation (run defaultConfig [Event.sendWindow]) 1 1 (by decide)).1,
   by decide⟩

theorem sr_sendWindowLoop_of_not_guard (cfg : Config) (fuel : Nat) (s : State)
    (h : ¬ (s.nextSeq < wrap32 (s.baseSeq + cfg.windowSize) ∧ s.nextSeq < cfg.maxPackets)) :
    sendWindowLoop cfg fuel s = s := by
  cases fuel with
  | zero => rfl
  | succ n => simp only [sendWindowLoop, if_neg h]

theorem sr_slideLoop_of_not_guard (cfg : Config) (fuel : Nat) (s : State)
    (h : ¬ (s.ackReceived s.baseSeq = true ∧ s.baseSeq < cfg.maxPackets)) :
    slideLoop cfg fuel s = s := by
  cases fuel with
  | zero => rfl
  | succ n => simp only [slideLoop, if_neg h]

/-- The window fill arms timers for sequence numbers from `nextSeq` on only. -/
theorem sr_sendWindowLoop_timers_below (cfg : Config) (fuel : Nat) (s : State) (j : Nat)
    (hj : j < s.nextSeq) : (sendWindowLoop cfg fuel s).timers j = s.timers j := by
  induction fuel generalizing s with
  | zero => rfl
  | succ n ih =>
    by_cases hg : s.nextSeq < wrap32 (s.baseSeq + cfg.windowSize) ∧ s.nextSeq < cfg.maxPackets
    · have e : sendWindowLoop cfg (n + 1) s = sendWindowLoop cfg n (sendNext s) := by
        simp only [sendWindowLoop, if_pos hg]
      have hn : (sendNext s).nextSeq = s.nextSeq + 1 := rfl
      have ht : (sendNext s).timers j = s.timers j := by
        have : j ≠ s.nextSeq := by omega
        simp [sendNext, SendPacket, this]
      rw [e, ih (sendNext s) (by omega), ht]
    · rw [sr_sendWindowLoop_of_not_guard cfg _ s hg]

/-- With enough fuel the guard of the slide loop is false at the end, and the loop does
not touch the timers. -/
theorem sr_slideLoop_exit (cfg : Config) (fuel : Nat) (s : State) :
    (slideLoop cfg fuel s).timers = s.timers ∧
    (cfg.maxPackets - s.baseSeq ≤ fuel →
      ¬ ((slideLoop cfg fuel s).ackReceived (slideLoop cfg fuel s).baseSeq = true ∧
          (slideLoop cfg fuel s).baseSeq < cfg.maxPackets)) := by
  induction fuel generalizing s with
  | zero =>
    refine ⟨rfl, ?_⟩
    intro h
    show ¬ (_ ∧ s.baseSeq < _)
    omega
  | succ n ih =>
    by_cases hg : s.ackReceived s.baseSeq = true ∧ s.baseSeq < cfg.maxPackets
    · have e : slideLoop cfg (n + 1) s = slideLoop cfg n (slideNext s) := by
        simp only [slideLoop, if_pos hg]
      have hb : (slideNext s).baseSeq = s.baseSeq + 1 := rfl
      have ht : (slideNext s).timers = s.timers := rfl
      obtain ⟨h1, h2⟩ := ih (slideNext s)
      rw [e, h1, ht]
      refine ⟨rfl, fun hf => h2 ?_⟩
      rw [hb]
      omega
    · rw [sr_slideLoop_of_not_guard cfg _ s hg]
      exact ⟨rfl, fun _ => hg⟩

theorem sr_afterCancel_timers (s : State) (a : Nat) : (afterCancel s a).timers a = none := by
  unfold afterCancel
  cases h : s.timers a <;> simp [cancel, h]

/-- An ACK for a sequence number that is already acknowledged and has no timer handle
leaves the state as it is up to the window slide. -/
theorem sr_afterCancel_of_done (s : State) (a : Nat) (h1 : s.timers a = none)
    (h2 : s.ackReceived a = true) : afterCancel s a = s := by
  have hf : (fun k => if k = a then true else s.ackReceived k) = s.ackReceived := by
    funext k
    by_cases hk : k = a
    · simp [hk, h2]
    · simp [hk]
  unfold afterCancel
  rw [h1]
  simp only [hf]

/-- C9. Selective-Repeat idempotent duplicate ACK: for every sender state (reachable or
not) and every sequence number `k` already sent (`k < nextSeq`), processing `ACK(k)` a
second time right after the first leaves the whole state as it is: `baseSeq`, `nextSeq`,
the acknowledged set, the timers and the pending timeout events are unchanged and no DATA
frame is sent. -/
theorem sr_duplicate_ack_idempotent (cfg : Config) (s : State) (k : Nat)
    (hk : k < s.nextSeq) :
    step cfg (step cfg s (Event.ack k)) (Event.ack k) = step cfg s (Event.ack k) := by
  obtain ⟨c1, c2, c3⟩ := sr_afterCancel_window s k
  have ct := sr_afterCancel_timers s k
  have ca : (afterCancel s k).ackReceived k = true := by rw [c3]; simp
  by_cases hb : k = (afterCancel s k).baseSeq
  · -- the first ACK slides the window and refills it
    have e1 : step cfg s (Event.ack k) = SendWindow cfg
        (slideLoop cfg (cfg.maxPackets - (afterCancel s k).baseSeq) (afterCancel s k)) := by
      rw [sr_step_ack_eq, if_pos hb]
    obtain ⟨l1, l2, -, -, -⟩ :=
      sr_slideLoop_window cfg (cfg.maxPackets - (afterCancel s k).baseSeq) (afterCancel s k)
    obtain ⟨lt, lx⟩ :=
      sr_slideLoop_exit cfg (cfg.maxPackets - (afterCancel s k).baseSeq) (afterCancel s k)
    have lx := lx (le_refl _)
    generalize slideLoop cfg (cfg.maxPackets - (afterCancel s k).baseSeq) (afterCancel s k) = T
      at e1 l1 l2 lt lx
    obtain ⟨g1, g2, -, -, g5⟩ := sr_sendWindowLoop_window cfg (cfg.maxPackets - T.nextSeq) T
    have g5 := g5 (le_refl _)
    have gt := sr_sendWindowLoop_timers_below cfg (cfg.maxPackets - T.nextSeq) T k (by omega)
    rw [e1]
    generalize hS : SendWindow cfg T = S
    have hS' : sendWindowLoop cfg (cfg.maxPackets - T.nextSeq) T = S := hS
    rw [hS'] at g1 g2 g5 gt
    have st : S.timers k = none := by rw [gt, lt, ct]
    have sa : S.ackReceived k = true := by rw [g2, l2, ca]
    rw [sr_step_ack_eq, sr_afterCancel_of_done S k st sa]
    split_ifs with hb2
    · have hsl : slideLoop cfg (cfg.maxPackets - S.baseSeq) S = S := by
        apply sr_slideLoop_of_not_guard
        rw [g1, g2]
        exact lx
      rw [hsl]
      apply sr_sendWindowLoop_of_not_guard
      rw [g1]
      exact g5
    · rfl
  · have e1 : step cfg s (Event.ack k) = afterCancel s k := by
      rw [sr_step_ack_eq, if_neg hb]
    rw [e1, sr_step_ack_eq, sr_afterCancel_of_done _ k ct ca, if_neg hb]

theorem sr_duplicate_ack_idempotent_witness :
    0 < (run defaultConfig [Event.sendWindow]).nextSeq ∧
    step defaultConfig (step defaultConfig (run defaultConfig [Event.sendWindow]) (Event.ack 0))
        (Event.ack 0)
      = step defaultConfig (run defaultConfig [Event.sendWindow]) (Event.ack 0) ∧
    (step defaultConfig (run defaultConfig [Event.sendWindow]) (Event.ack 0)).dataOut
      = [0, 1, 2, 3, 4] :=
  ⟨by decide,
   sr_duplicate_ack_idempotent defaultConfig (run defaultConfig [Event.sendWindow]) 0
     (by decide),
   by decide⟩

end SelectiveRepeat

/-! ## Go-Back-N: the window -/

namespace GoBackN

theorem gbn_wrap32_le (n : Nat) : wrap32 n ≤ n := Nat.mod_le _ _

theorem gbn_wrap32_small {n : Nat} (h : n < 4294967296) : wrap32 n = n := Nat.mod_eq_of_lt h

theorem gbn_run_snoc (cfg : Config) (evs : List Event) (e : Event) :
    run cfg (evs ++ [e]) = step cfg (run cfg evs) e := by
  simp [run, List.foldl_append]

theorem gbn_sendWindowLoop_of_not_guard (cfg : Config) (fuel : Nat) (s : State)
    (h : ¬ (s.nextSeqNum < wrap32 (s.baseSeqNum + cfg.windowSize) ∧
      s.nextSeqNum < cfg.maxPackets)) :
    sendWindowLoop cfg fuel s = s := by
  cases fuel with
  | zero => rfl
  | succ n => simp only [sendWindowLoop, if_neg h]

/-- What `sendWindowLoop` does to the window: `baseSeqNum` is kept, `nextSeqNum` only
grows, stays below the bound of the guard when it moves, and with enough fuel the guard
is false at the end. -/
theorem gbn_sendWindowLoop_window (cfg : Config) (fuel : Nat) (s : State) :
    (sendWindowLoop cfg fuel s).baseSeqNum = s.baseSeqNum ∧
    s.nextSeqNum ≤ (sendWindowLoop cfg fuel s).nextSeqNum ∧
    ((sendWindowLoop cfg fuel s).nextSeqNum = s.nextSeqNum ∨
      ((sendWindowLoop cfg fuel s).nextSeqNum ≤ wrap32 (s.baseSeqNum + cfg.windowSize) ∧
        (sendWindowLoop cfg fuel s).nextSeqNum ≤ cfg.maxPackets)) ∧
    (cfg.maxPackets - s.nextSeqNum ≤ fuel →
      ¬ ((sendWindowLoop cfg fuel s).nextSeqNum < wrap32 (s.baseSeqNum + cfg.windowSize) ∧
          (sendWindowLoop cfg fuel s).nextSeqNum < cfg.maxPackets)) := by
  induction fuel generalizing s with
  | zero =>
    refine ⟨rfl, le_refl _, Or.inl rfl, ?_⟩
    intro h
    show ¬ (s.nextSeqNum < _ ∧ s.nextSeqNum < _)
    omega
  | succ n ih =>
    by_cases hg : s.nextSeqNum < wrap32 (s.baseSeqNum + cfg.windowSize) ∧
        s.nextSeqNum < cfg.maxPackets
    · have e : sendWindowLoop cfg (n + 1) s = sendWindowLoop cfg n (sendNext s) := by
        simp only [sendWindowLoop, if_pos hg]
      have hb : (sendNext s).baseSeqNum = s.baseSeqNum := rfl
      have hn : (sendNext s).nextSeqNum = s.nextSeqNum + 1 := rfl
      obtain ⟨h1, h3, h4, h5⟩ := ih (sendNext s)
      rw [e]
      rw [hb] at h1 h4 h5
      rw [hn] at h3 h4 h5
      refine ⟨h1, by omega, ?_, ?_⟩
      · right
        rcases h4 with h4 | h4
        · omega
        · exact h4
      · intro hf
        exact h5 (by omega)
    · rw [gbn_sendWindowLoop_of_not_guard cfg _ s hg]
      exact ⟨rfl, le_refl _, Or.inl rfl, fun _ => hg⟩

/-- The timeout loop leaves `baseSeqNum` and `nextSeqNum` alone. -/
theorem gbn_timeoutLoop_window (cfg : Config) (fuel i : Nat) (s : State) :
    (timeoutLoop cfg fuel i s).baseSeqNum = s.baseSeqNum ∧
    (timeoutLoop cfg fuel i s).nextSeqNum = s.nextSeqNum := by
  induction fuel generalizing i s with
  | zero => exact ⟨rfl, rfl⟩
  | succ n ih =>
    simp only [timeoutLoop]
    split_ifs with hg
    · obtain ⟨h1, h2⟩ := ih (i + 1) (SendPacket i s)
      exact ⟨h1, h2⟩
    · exact ⟨rfl, rfl⟩

theorem gbn_fire_window (cfg : Config) (uid : Nat) (s : State) :
    (fire cfg uid s).baseSeqNum = s.baseSeqNum ∧
    ((fire cfg uid s).nextSeqNum = s.nextSeqNum ∨
      (fire cfg uid s).nextSeqNum = s.baseSeqNum) := by
  unfold fire
  cases s.pending.find? (fun e => e.1 = uid) with
  | none => exact ⟨rfl, Or.inl rfl⟩
  | some e =>
    obtain ⟨h1, h2⟩ := gbn_timeoutLoop_window cfg (cfg.maxPackets - (cancel uid s).baseSeqNum)
      (cancel uid s).baseSeqNum { cancel uid s with nextSeqNum := (cancel uid s).baseSeqNum }
    exact ⟨h1, Or.inr h2⟩

theorem gbn_afterCancel_window (s : State) (a : Nat) :
    (afterCancel s a).baseSeqNum = s.baseSeqNum ∧
    (afterCancel s a).nextSeqNum = s.nextSeqNum ∧
    (afterCancel s a).dataOut = s.dataOut ∧
    (afterCancel s a).nextUid = s.nextUid := by
  unfold afterCancel
  cases s.timers a <;> simp [cancel]

theorem gbn_step_ack_eq (cfg : Config) (s : State) (a : Nat) :
    step cfg s (Event.ack a) =
      if s.baseSeqNum ≤ a then
        if wrap32 (a + 1) < cfg.maxPackets then SendWindow cfg (advanceBase s a)
        else advanceBase s a
      else afterCancel s a := by
  simp only [step, ReceivePacket, List.foldl, handleFrame, afterCancel, advanceBase]
  cases s.timers a <;> simp [cancel]

theorem gbn_step_windowInv (cfg : Config) (hc : cfg.maxPackets + cfg.windowSize < 4294967296)
    (s : State) (e : Event) (he : ∀ a, e = Event.ack a → a < cfg.maxPackets)
    (h : WindowInv cfg s) : WindowInv cfg (step cfg s e) := by
  obtain ⟨h1, h2, h3, h4⟩ := h
  cases e with
  | sendWindow =>
    obtain ⟨g1, g3, g4, -⟩ := gbn_sendWindowLoop_window cfg (cfg.maxPackets - s.nextSeqNum) s
    have hw := gbn_wrap32_le (s.baseSeqNum + cfg.windowSize)
    simp only [step, SendWindow, WindowInv]
    omega
  | ack a =>
    have ha := he a rfl
    rw [gbn_step_ack_eq]
    obtain ⟨c1, c2, -, -⟩ := gbn_afterCancel_window s a
    have hw1 : wrap32 (a + 1) = a + 1 := gbn_wrap32_small (by omega)
    have b1 : (advanceBase s a).baseSeqNum = a + 1 := by simp [advanceBase, hw1]
    have b2 : (advanceBase s a).nextSeqNum = s.nextSeqNum := by simp [advanceBase, c2]
    split_ifs with hb hm
    · obtain ⟨g1, g3, g4, g5⟩ := gbn_sendWindowLoop_window cfg
        (cfg.maxPackets - (advanceBase s a).nextSeqNum) (advanceBase s a)
      have g5 := g5 (le_refl _)
      have hw : wrap32 ((advanceBase s a).baseSeqNum + cfg.windowSize)
          = (advanceBase s a).baseSeqNum + cfg.windowSize :=
        gbn_wrap32_small (by omega)
      simp only [SendWindow, WindowInv]
      omega
    · simp only [WindowInv]
      omega
    · simp only [WindowInv]
      omega
  | timeout uid =>
    obtain ⟨f1, f2⟩ := gbn_fire_window cfg uid s
    simp only [step, WindowInv]
    omega

/-- C2 (amended). Go-Back-N sender window: from the initial state, after any finite
sequence of `SendWindow` calls, ACK frames whose sequence number is below `maxPackets`
and timeout firings, `nextSeqNum ≤ baseSeqNum + windowSize`, `nextSeqNum ≤ maxPackets`,
`baseSeqNum ≤ maxPackets`, and `baseSeqNum ≤ nextSeqNum` unless `baseSeqNum = maxPackets`
(for a configuration whose `maxPackets + windowSize` fits in 32 bits, as 15 + 4 does). -/
theorem gbn_window_invariant (cfg : Config)
    (hc : cfg.maxPackets + cfg.windowSize < 4294967296) (evs : List Event)
    (hev : ∀ a, Event.ack a ∈ evs → a < cfg.maxPackets) :
    (run cfg evs).nextSeqNum ≤ (run cfg evs).baseSeqNum + cfg.windowSize ∧
    (run cfg evs).nextSeqNum ≤ cfg.maxPackets ∧
    (run cfg evs).baseSeqNum ≤ cfg.maxPackets ∧
    ((run cfg evs).baseSeqNum ≤ (run cfg evs).nextSeqNum ∨
      (run cfg evs).baseSeqNum = cfg.maxPackets) := by
  induction evs using List.reverseRecOn with
  | nil => simp [run, init]
  | append_singleton l e ih =>
    rw [gbn_run_snoc]
    refine gbn_step_windowInv cfg hc _ e ?_ (ih ?_)
    · intro a ha
      exact hev a (by simp [ha])
    · intro a ha
      exact hev a (by simp [ha])

theorem gbn_window_invariant_witness :
    defaultConfig.maxPackets + defaultConfig.windowSize < 4294967296 ∧
    (∀ a, Event.ack a ∈ [Event.sendWindow, Event.ack 3, Event.timeout 0, Event.ack 6] →
      a < defaultConfig.maxPackets) ∧
    (run defaultConfig [Event.sendWindow, Event.ack 3, Event.timeout 0, Event.ack 6]).nextSeqNum
      ≤ defaultConfig.maxPackets ∧
    (run defaultConfig [Event.sendWindow, Event.ack 3, Event.timeout 0, Event.ack 6]).nextSeqNum
      = 11 :=
  ⟨by decide, by simp [defaultConfig],
   (gbn_window_invariant defaultConfig (by decide)
     [Event.sendWindow, Event.ack 3, Event.timeout 0, Event.ack 6]
     (by simp [defaultConfig])).2.1,
   by decide⟩

/-- C2, as stated, fails: after the first window is sent and acknowledged up to 11, a
timeout resets `nextSeqNum` to `baseSeqNum = 12`, and the ACK for 14 then sets
`baseSeqNum = 15` without refilling the window, so `baseSeqNum > nextSeqNum`. -/
theorem gbn_window_invariant_counterexample :
    (run defaultConfig [Event.sendWindow, Event.ack 3, Event.ack 7, Event.ack 11,
      Event.timeout 0, Event.ack 14]).baseSeqNum = 15 ∧
    (run defaultConfig [Event.sendWindow, Event.ack 3, Event.ack 7, Event.ack 11,
      Event.timeout 0, Event.ack 14]).nextSeqNum = 12 ∧
    ¬ ((run defaultConfig [Event.sendWindow, Event.ack 3, Event.ack 7, Event.ack 11,
        Event.timeout 0, Event.ack 14]).baseSeqNum
      ≤ (run defaultConfig [Event.sendWindow, Event.ack 3, Event.ack 7, Event.ack 11,
        Event.timeout 0, Event.ack 14]).nextSeqNum) := by
  decide

/-! ## Go-Back-N: the timeout burst -/

theorem gbn_burst_shift (u i n : Nat) :
    List.map (fun d => (u + d, i + d)) (List.range (n + 1))
      = (u, i) :: List.map (fun d => (u + 1 + d, i + 1 + d)) (List.range n) := by
  rw [List.range_succ_eq_map, List.map_cons, List.map_map]
  refine congrArg₂ _ rfl (List.map_congr_left ?_)
  intro d _
  simp only [Function.comp, Nat.succ_eq_add_one, Prod.mk.injEq]
  omega

/-- What the timeout loop does from loop variable `i`, with enough fuel: it sends
`i, i + 1, ...` up to the end of the window, schedules one new event for each, stores
their ids in `timers`, and removes nothing from the event list. -/
theorem gbn_timeoutLoop_spec (cfg : Config) (fuel i : Nat) (s : State)
    (hf : cfg.maxPackets - i ≤ fuel) :
    (timeoutLoop cfg fuel i s).dataOut = s.dataOut ++ List.range' i (burstEnd cfg s - i) ∧
    (timeoutLoop cfg fuel i s).pending = s.pending ++
      (List.range (burstEnd cfg s - i)).map (fun d => (s.nextUid + d, i + d)) ∧
    (timeoutLoop cfg fuel i s).nextUid = s.nextUid + (burstEnd cfg s - i) ∧
    (∀ k, (timeoutLoop cfg fuel i s).timers k
      = if i ≤ k ∧ k < burstEnd cfg s then some (s.nextUid + (k - i)) else s.timers k) := by
  induction fuel generalizing i s with
  | zero =>
    have h0 : burstEnd cfg s - i = 0 := by
      have := Nat.min_le_right (wrap32 (s.baseSeqNum + cfg.windowSize)) cfg.maxPackets
      simp only [burstEnd]
      omega
    rw [h0]
    refine ⟨by simp [timeoutLoop], by simp [timeoutLoop], rfl, ?_⟩
    intro k
    have : ¬ (i ≤ k ∧ k < burstEnd cfg s) := by omega
    simp [timeoutLoop, this]
  | succ n ih =>
    by_cases hg : i < wrap32 (s.baseSeqNum + cfg.windowSize) ∧ i < cfg.maxPackets
    · have e : timeoutLoop cfg (n + 1) i s = timeoutLoop cfg n (i + 1) (SendPacket i s) := by
        simp only [timeoutLoop, if_pos hg]
      have hbe : burstEnd cfg (SendPacket i s) = burstEnd cfg s := rfl
      have hlen : burstEnd cfg s - i = (burstEnd cfg s - (i + 1)) + 1 := by
        have : i < burstEnd cfg s := by
          simp only [burstEnd]
          exact lt_min hg.1 hg.2
        omega
      obtain ⟨h1, h2, h3, h4⟩ := ih (i + 1) (SendPacket i s) (by omega)
      rw [hbe] at h1 h2 h3 h4
      rw [e, hlen]
      refine ⟨?_, ?_, ?_, ?_⟩
      · rw [h1, List.range'_succ]
        simp [SendPacket]
      · rw [h2, gbn_burst_shift]
        simp [SendPacket]
      · rw [h3]
        simp only [SendPacket]
        omega
      · intro k
        rw [h4 k]
        by_cases hk : k = i
        · have c1 : ¬ (i + 1 ≤ k ∧ k < burstEnd cfg s) := by omega
          have c2 : i ≤ k ∧ k < burstEnd cfg s := by omega
          rw [if_neg c1, if_pos c2]
          simp [SendPacket, hk]
        · by_cases hr : i + 1 ≤ k ∧ k < burstEnd cfg s
          · have c2 : i ≤ k ∧ k < burstEnd cfg s := by omega
            rw [if_pos hr, if_pos c2]
            simp only [SendPacket]
            congr 1
            omega
          · have c2 : ¬ (i ≤ k ∧ k < burstEnd cfg s) := by omega
            rw [if_neg hr, if_neg c2]
            simp [SendPacket, hk]
    · have e : timeoutLoop cfg (n + 1) i s = s := by
        simp only [timeoutLoop, if_neg hg]
      have h0 : burstEnd cfg s - i = 0 := by
        simp only [burstEnd]
        have := Nat.min_le_left (wrap32 (s.baseSeqNum + cfg.windowSize)) cfg.maxPackets
        have := Nat.min_le_right (wrap32 (s.baseSeqNum + cfg.windowSize)) cfg.maxPackets
        rcases Nat.lt_or_ge i (wrap32 (s.baseSeqNum + cfg.windowSize)) with h | h
        · have : ¬ i < cfg.maxPackets := fun h' => hg ⟨h, h'⟩
          omega
        · omega
      rw [e, h0]
      refine ⟨by simp, by simp, rfl, ?_⟩
      intro k
      have : ¬ (i ≤ k ∧ k < burstEnd cfg s) := by omega
      simp [this]

/-- The timeout callback on a pending event: the state after `fire`. -/
theorem gbn_fire_eq (cfg : Config) (uid k : Nat) (s : State)
    (h : s.pending.find? (fun e => e.1 = uid) = some (uid, k)) :
    fire cfg uid s = timeoutLoop cfg (cfg.maxPackets - s.baseSeqNum) s.baseSeqNum
      { cancel uid s with nextSeqNum := s.baseSeqNum } := by
  simp only [fire, h, timeoutCallback, cancel]

/-- C6 (amended). Go-Back-N burst: when a timeout event fires (for `k = baseSeqNum` or any
other sequence number), the DATA frames sent by the handler are exactly the sequence
numbers `baseSeqNum, ..., m − 1` with `m = min((baseSeqNum + windowSize) mod 2^32,
maxPackets)`, each once, in ascending order, whatever `nextSeqNum` is; this is the range
`[baseSeqNum, nextSeqNum)` when `nextSeqNum = m` before the handler runs. -/
theorem gbn_timeout_burst (cfg : Config) (s : State) (uid k : Nat)
    (h : s.pending.find? (fun e => e.1 = uid) = some (uid, k)) :
    (fire cfg uid s).dataOut
      = s.dataOut ++ List.range' s.baseSeqNum (burstEnd cfg s - s.baseSeqNum) ∧
    (s.nextSeqNum = burstEnd cfg s →
      (fire cfg uid s).dataOut
        = s.dataOut ++ List.range' s.baseSeqNum (s.nextSeqNum - s.baseSeqNum)) := by
  have key := (gbn_timeoutLoop_spec cfg (cfg.maxPackets - s.baseSeqNum) s.baseSeqNum
    { cancel uid s with nextSeqNum := s.baseSeqNum } (le_refl _)).1
  rw [← gbn_fire_eq cfg uid k s h] at key
  have hbe : burstEnd cfg { cancel uid s with nextSeqNum := s.baseSeqNum } = burstEnd cfg s :=
    rfl
  rw [hbe] at key
  refine ⟨key, ?_⟩
  intro hn
  rw [hn]
  exact key

theorem gbn_timeout_burst_witness :
    (run defaultConfig [Event.sendWindow, Event.ack 1]).pending.find? (fun e => e.1 = 0)
      = some (0, 0) ∧
    (run defaultConfig [Event.sendWindow, Event.ack 1]).nextSeqNum
      = burstEnd defaultConfig (run defaultConfig [Event.sendWindow, Event.ack 1]) ∧
    (fire defaultConfig 0 (run defaultConfig [Event.sendWindow, Event.ack 1])).dataOut
      = (run defaultConfig [Event.sendWindow, Event.ack 1]).dataOut ++ List.range' 2 4 :=
  ⟨by decide, by decide,
   (gbn_timeout_burst defaultConfig (run defaultConfig [Event.sendWindow, Event.ack 1]) 0 0
     (by decide)).2 (by decide)⟩

/-- C6, as stated, fails: with every frame lost, the four timers of the first window fire
and leave `nextSeqNum = baseSeqNum = 0`; when the next timer of sequence number 0 fires,
`[baseSeqNum, nextSeqNum)` is empty but the handler sends 0, 1, 2, 3. -/
theorem gbn_timeout_burst_counterexample :
    (run defaultConfig [Event.sendWindow, Event.timeout 0, Event.timeout 1, Event.timeout 2,
      Event.timeout 3]).pending.find? (fun e => e.1 = 4) = some (4, 0) ∧
    (run defaultConfig [Event.sendWindow, Event.timeout 0, Event.timeout 1, Event.timeout 2,
      Event.timeout 3]).baseSeqNum = 0 ∧
    (run defaultConfig [Event.sendWindow, Event.timeout 0, Event.timeout 1, Event.timeout 2,
      Event.timeout 3]).nextSeqNum = 0 ∧
    (fire defaultConfig 4 (run defaultConfig [Event.sendWindow, Event.timeout 0,
      Event.timeout 1, Event.timeout 2, Event.timeout 3])).dataOut
      = (run defaultConfig [Event.sendWindow, Event.timeout 0, Event.timeout 1,
          Event.timeout 2, Event.timeout 3]).dataOut ++ [0, 1, 2, 3] ∧
    (fire defaultConfig 4 (run defaultConfig [Event.sendWindow, Event.timeout 0,
      Event.timeout 1, Event.timeout 2, Event.timeout 3])).dataOut
      ≠ (run defaultConfig [Event.sendWindow, Event.timeout 0, Event.timeout 1,
          Event.timeout 2, Event.timeout 3]).dataOut ++ List.range' 0 (0 - 0) := by
  decide

/-! ## Go-Back-N: timers -/

theorem gbn_SendPacket_fresh (i : Nat) (s : State) (h : Fresh s) : Fresh (SendPacket i s) := by
  obtain ⟨h1, h2⟩ := h
  refine ⟨?_, ?_⟩
  · intro e he
    simp only [SendPacket, List.mem_append, List.mem_singleton] at he ⊢
    rcases he with he | he
    · have := h1 e he
      omega
    · rw [he]
      exact Nat.lt_succ_self _
  · intro k id hk
    simp only [SendPacket] at hk ⊢
    split_ifs at hk with hki
    · have : s.nextUid = id := Option.some.inj hk
      omega
    · have := h2 k id hk
      omega

theorem gbn_cancel_fresh (id : Nat) (s : State) (h : Fresh s) : Fresh (cancel id s) := by
  obtain ⟨h1, h2⟩ := h
  refine ⟨?_, h2⟩
  intro e he
  simp only [cancel, List.mem_filter] at he
  exact h1 e he.1

theorem gbn_afterCancel_fresh (s : State) (a : Nat) (h : Fresh s) : Fresh (afterCancel s a) := by
  unfold afterCancel
  cases ht : s.timers a with
  | none => exact h
  | some id =>
    obtain ⟨h1, h2⟩ := gbn_cancel_fresh id s h
    refine ⟨h1, ?_⟩
    intro k id' hk
    simp only at hk
    split_ifs at hk with hka
    exact h2 k id' hk

/-- What `sendWindowLoop` does to the event list: nothing is removed, the events added
have new ids, and `Fresh` is kept. -/
theorem gbn_sendWindowLoop_pending (cfg : Config) (fuel : Nat) (s : State) :
    (∀ e ∈ s.pending, e ∈ (sendWindowLoop cfg fuel s).pending) ∧
    (∀ e ∈ (sendWindowLoop cfg fuel s).pending, e ∈ s.pending ∨ s.nextUid ≤ e.1) ∧
    s.nextUid ≤ (sendWindowLoop cfg fuel s).nextUid ∧
    (Fresh s → Fresh (sendWindowLoop cfg fuel s)) := by
  induction fuel generalizing s with
  | zero => exact ⟨fun e he => he, fun e he => Or.inl he, le_refl _, fun h => h⟩
  | succ n ih =>
    by_cases hg : s.nextSeqNum < wrap32 (s.baseSeqNum + cfg.windowSize) ∧
        s.nextSeqNum < cfg.maxPackets
    · have e : sendWindowLoop cfg (n + 1) s = sendWindowLoop cfg n (sendNext s) := by
        simp only [sendWindowLoop, if_pos hg]
      have hp : (sendNext s).pending = s.pending ++ [(s.nextUid, s.nextSeqNum)] := rfl
      have hu : (sendNext s).nextUid = s.nextUid + 1 := rfl
      have hfr : Fresh s → Fresh (sendNext s) := fun h =>
        gbn_SendPacket_fresh s.nextSeqNum s h
      obtain ⟨h1, h2, h3, h4⟩ := ih (sendNext s)
      rw [e]
      refine ⟨?_, ?_, by omega, fun h => h4 (hfr h)⟩
      · intro e he
        exact h1 e (by rw [hp]; exact List.mem_append_left _ he)
      · intro e he
        rcases h2 e he with h | h
        · rw [hp, List.mem_append, List.mem_singleton] at h
          rcases h with h | h
          · exact Or.inl h
          · right
            rw [h]
        · right
          omega
    · rw [gbn_sendWindowLoop_of_not_guard cfg _ s hg]
      exact ⟨fun e he => he, fun e he => Or.inl he, le_refl _, fun h => h⟩

theorem gbn_timeoutLoop_fresh (cfg : Config) (fuel i : Nat) (s : State) (h : Fresh s) :
    Fresh (timeoutLoop cfg fuel i s) := by
  induction fuel generalizing i s with
  | zero => exact h
  | succ n ih =>
    simp only [timeoutLoop]
    split_ifs with hg
    · exact ih (i + 1) (SendPacket i s) (gbn_SendPacket_fresh i s h)
    · exact h

theorem gbn_step_fresh (cfg : Config) (s : State) (e : Event) (h : Fresh s) :
    Fresh (step cfg s e) := by
  cases e with
  | sendWindow => exact (gbn_sendWindowLoop_pending cfg _ s).2.2.2 h
  | ack a =>
    rw [gbn_step_ack_eq]
    have hA := gbn_afterCancel_fresh s a h
    have hB : Fresh (advanceBase s a) := hA
    split_ifs
    · exact (gbn_sendWindowLoop_pending cfg _ (advanceBase s a)).2.2.2 hB
    · exact hB
    · exact hA
  | timeout uid =>
    simp only [step, fire]
    cases s.pending.find? (fun e => e.1 = uid) with
    | none => exact h
    | some e =>
      have hC := gbn_cancel_fresh uid s h
      exact gbn_timeoutLoop_fresh cfg _ _ _ hC

theorem gbn_run_fresh (cfg : Config) (evs : List Event) : Fresh (run cfg evs) := by
  induction evs using List.reverseRecOn with
  | nil =>
    refine ⟨?_, ?_⟩
    · intro e he
      simp [run, init] at he
    · intro k id hk
      simp [run, init] at hk
  | append_singleton l e ih =>
    rw [gbn_run_snoc]
    exact gbn_step_fresh cfg _ e ih

/-- C10 (amended). Go-Back-N keeps one timer handle per sequence number, the latest, and
arming a timer cancels nothing: when, in a reachable sender state, the timeout handler
re-sends a sequence number `j` whose earlier timer `id0` is still pending, that earlier
event stays scheduled and a new event with a different id is scheduled for `j` and
stored in `timers[j]`; so `j` has two uncancelled timeout events. -/
theorem gbn_timeout_keeps_earlier_timers (cfg : Config) (evs : List Event) (uid k j id0 : Nat)
    (h : (run cfg evs).pending.find? (fun e => e.1 = uid) = some (uid, k))
    (hj1 : (run cfg evs).baseSeqNum ≤ j) (hj2 : j < burstEnd cfg (run cfg evs))
    (h0 : (id0, j) ∈ (run cfg evs).pending) (hne : id0 ≠ uid) :
    (id0, j) ∈ (fire cfg uid (run cfg evs)).pending ∧
    ((run cfg evs).nextUid + (j - (run cfg evs).baseSeqNum), j)
      ∈ (fire cfg uid (run cfg evs)).pending ∧
    id0 ≠ (run cfg evs).nextUid + (j - (run cfg evs).baseSeqNum) ∧
    (fire cfg uid (run cfg evs)).timers j
      = some ((run cfg evs).nextUid + (j - (run cfg evs).baseSeqNum)) := by
  have hfr := (gbn_run_fresh cfg evs).1 (id0, j) h0
  generalize run cfg evs = s at h hj1 hj2 h0 hfr
  obtain ⟨-, k2, -, k4⟩ := gbn_timeoutLoop_spec cfg (cfg.maxPackets - s.baseSeqNum)
    s.baseSeqNum { cancel uid s with nextSeqNum := s.baseSeqNum } (le_refl _)
  rw [← gbn_fire_eq cfg uid k s h] at k2 k4
  have hbe : burstEnd cfg { cancel uid s with nextSeqNum := s.baseSeqNum } = burstEnd cfg s :=
    rfl
  rw [hbe] at k2 k4
  have hu : ({ cancel uid s with nextSeqNum := s.baseSeqNum } : State).nextUid = s.nextUid :=
    rfl
  have hp : ({ cancel uid s with nextSeqNum := s.baseSeqNum } : State).pending
      = s.pending.filter (fun e => e.1 ≠ uid) := rfl
  rw [hu] at k2 k4
  rw [hp] at k2
  refine ⟨?_, ?_, ?_, ?_⟩
  · rw [k2]
    apply List.mem_append_left
    rw [List.mem_filter]
    exact ⟨h0, by simpa using hne⟩
  · rw [k2]
    apply List.mem_append_right
    rw [List.mem_map]
    refine ⟨j - s.baseSeqNum, ?_, ?_⟩
    · rw [List.mem_range]
      omega
    · simp only [Prod.mk.injEq, true_and]
      omega
  · have : id0 < s.nextUid := hfr
    omega
  · rw [k4 j, if_pos ⟨hj1, hj2⟩]

theorem gbn_timeout_keeps_earlier_timers_witness :
    (run defaultConfig [Event.sendWindow]).pending.find? (fun e => e.1 = 0) = some (0, 0) ∧
    (1, 1) ∈ (run defaultConfig [Event.sendWindow]).pending ∧
    ((1, 1) ∈ (fire defaultConfig 0 (run defaultConfig [Event.sendWindow])).pending ∧
      ((run defaultConfig [Event.sendWindow]).nextUid
          + (1 - (run defaultConfig [Event.sendWindow]).baseSeqNum), 1)
        ∈ (fire defaultConfig 0 (run defaultConfig [Event.sendWindow])).pending ∧
      1 ≠ (run defaultConfig [Event.sendWindow]).nextUid
          + (1 - (run defaultConfig [Event.sendWindow]).baseSeqNum) ∧
      (fire defaultConfig 0 (run defaultConfig [Event.sendWindow])).timers 1
        = some ((run defaultConfig [Event.sendWindow]).nextUid
          + (1 - (run defaultConfig [Event.sendWindow]).baseSeqNum))) :=
  ⟨by decide, by decide,
   gbn_timeout_keeps_earlier_timers defaultConfig [Event.sendWindow] 0 0 1 1
     (by decide) (by decide) (by decide) (by decide) (by decide)⟩

/-- C10, as stated, fails: after the first window is sent and the timer of sequence
number 0 fires, the handler re-sends 0, 1, 2, 3 without cancelling the timers of 1, 2, 3,
so sequence number 1 has two scheduled, uncancelled timeout events (ids 1 and 5). -/
theorem gbn_one_timer_counterexample :
    (run defaultConfig [Event.sendWindow, Event.timeout 0]).pending
      = [(1, 1), (2, 2), (3, 3), (4, 0), (5, 1), (6, 2), (7, 3)] ∧
    ((run defaultConfig [Event.sendWindow, Event.timeout 0]).pending.filter
      (fun e => e.2 = 1)).length = 2 := by
  decide

/-! ## Go-Back-N: the ACK branch -/

/-- The timer cancellation of the ACK branch removes the events with the id stored in
`timers[a]` and nothing else, and erases `timers[a]`. -/
theorem gbn_afterCancel_timers (s : State) (a : Nat) :
    (∀ e, e ∈ (afterCancel s a).pending ↔ (e ∈ s.pending ∧ s.timers a ≠ some e.1)) ∧
    (afterCancel s a).timers a = none ∧
    (∀ k, k ≠ a → (afterCancel s a).timers k = s.timers k) := by
  unfold afterCancel
  cases ht : s.timers a with
  | none => simp [ht]
  | some id =>
    refine ⟨?_, by simp, ?_⟩
    · intro e
      simp only [cancel, List.mem_filter, ne_eq, decide_not, Bool.not_eq_true',
        decide_eq_false_iff_not, Option.some.injEq]
      constructor
      · rintro ⟨h1, h2⟩
        exact ⟨h1, fun h => h2 h.symm⟩
      · rintro ⟨h1, h2⟩
        exact ⟨h1, fun h => h2 h.symm⟩
    · intro k hk
      simp [hk]

/-- C5 (amended). Go-Back-N onAck: for every reachable sender state and every ACK with
sequence number `a ≥ baseSeqNum`, after the handler `baseSeqNum = (a + 1) mod 2^32` and
the timer event whose handle `timers[a]` held is no longer pending; every other pending
timer event, those of the sequence numbers in `[old baseSeqNum, a)` included, is still
pending. -/
theorem gbn_ack_advances_base (cfg : Config) (evs : List Event) (a : Nat)
    (ha : (run cfg evs).baseSeqNum ≤ a) :
    (step cfg (run cfg evs) (Event.ack a)).baseSeqNum = wrap32 (a + 1) ∧
    (∀ id, (run cfg evs).timers a = some id →
      ∀ k, (id, k) ∉ (step cfg (run cfg evs) (Event.ack a)).pending) ∧
    (∀ e ∈ (run cfg evs).pending, (run cfg evs).timers a ≠ some e.1 →
      e ∈ (step cfg (run cfg evs) (Event.ack a)).pending) := by
  have hfr := gbn_run_fresh cfg evs
  generalize run cfg evs = s at ha hfr
  obtain ⟨t1, -, -⟩ := gbn_afterCancel_timers s a
  obtain ⟨-, -, -, cu⟩ := gbn_afterCancel_window s a
  have hb : (advanceBase s a).baseSeqNum = wrap32 (a + 1) := rfl
  have hp : (advanceBase s a).pending = (afterCancel s a).pending := rfl
  have hu : (advanceBase s a).nextUid = s.nextUid := cu
  have hstep : step cfg s (Event.ack a) =
      if wrap32 (a + 1) < cfg.maxPackets then SendWindow cfg (advanceBase s a)
      else advanceBase s a := by
    rw [gbn_step_ack_eq, if_pos ha]
  rw [hstep]
  obtain ⟨w1, -, -, -⟩ := gbn_sendWindowLoop_window cfg
    (cfg.maxPackets - (advanceBase s a).nextSeqNum) (advanceBase s a)
  obtain ⟨p1, p2, -, -⟩ := gbn_sendWindowLoop_pending cfg
    (cfg.maxPackets - (advanceBase s a).nextSeqNum) (advanceBase s a)
  have notin : ∀ id, s.timers a = some id → ∀ k, (id, k) ∉ (advanceBase s a).pending := by
    intro id hid k hmem
    rw [hp] at hmem
    exact ((t1 (id, k)).1 hmem).2 hid
  have stays : ∀ e ∈ s.pending, s.timers a ≠ some e.1 → e ∈ (advanceBase s a).pending := by
    intro e he hne
    rw [hp]
    exact (t1 e).2 ⟨he, hne⟩
  split_ifs with hm
  · refine ⟨by rw [← hb]; exact w1, ?_, ?_⟩
    · intro id hid k hmem
      rcases p2 (id, k) hmem with h | h
      · exact notin id hid k h
      · have := hfr.2 a id hid
        rw [hu] at h
        have h' : s.nextUid ≤ id := h
        omega
    · intro e he hne
      exact p1 e (stays e he hne)
  · exact ⟨hb, notin, stays⟩

theorem gbn_ack_advances_base_witness :
    (run defaultConfig [Event.sendWindow]).baseSeqNum ≤ 2 ∧
    (step defaultConfig (run defaultConfig [Event.sendWindow]) (Event.ack 2)).baseSeqNum
      = wrap32 (2 + 1) ∧
    (step defaultConfig (run defaultConfig [Event.sendWindow]) (Event.ack 2)).pending
      = [(0, 0), (1, 1), (3, 3), (4, 4), (5, 5), (6, 6)] :=
  ⟨by decide, (gbn_ack_advances_base defaultConfig [Event.sendWindow] 2 (by decide)).1,
   by decide⟩

/-- C5, as stated, fails: after the first window is sent, `ACK(3)` sets `baseSeqNum = 4`
but cancels the timer of sequence number 3 only; the timers of 0, 1 and 2, armed before the
ACK, are still pending and still in `timers`. -/
theorem gbn_ack_range_counterexample :
    (run defaultConfig [Event.sendWindow]).baseSeqNum ≤ 3 ∧
    (run defaultConfig [Event.sendWindow]).timers 1 = some 1 ∧
    (1, 1) ∈ (run defaultConfig [Event.sendWindow]).pending ∧
    (step defaultConfig (run defaultConfig [Event.sendWindow]) (Event.ack 3)).baseSeqNum = 4 ∧
    (step defaultConfig (run defaultConfig [Event.sendWindow]) (Event.ack 3)).timers 1
      = some 1 ∧
    (1, 1) ∈ (step defaultConfig (run defaultConfig [Event.sendWindow]) (Event.ack 3)).pending := by
  decide

/-- C8 (amended). Go-Back-N stale ACK: for every sender state and every ACK whose
sequence number `a` is below `baseSeqNum`, the handler leaves `baseSeqNum` and
`nextSeqNum` unchanged and sends no DATA frame; it cancels the timer event whose handle
`timers[a]` holds, if any, erases `timers[a]`, and leaves every other timer as it is. -/
theorem gbn_stale_ack (cfg : Config) (s : State) (a : Nat) (ha : a < s.baseSeqNum) :
    (step cfg s (Event.ack a)).baseSeqNum = s.baseSeqNum ∧
    (step cfg s (Event.ack a)).nextSeqNum = s.nextSeqNum ∧
    (step cfg s (Event.ack a)).dataOut = s.dataOut ∧
    (∀ e, e ∈ (step cfg s (Event.ack a)).pending ↔ (e ∈ s.pending ∧ s.timers a ≠ some e.1)) ∧
    (step cfg s (Event.ack a)).timers a = none ∧
    (∀ k, k ≠ a → (step cfg s (Event.ack a)).timers k = s.timers k) := by
  have hstep : step cfg s (Event.ack a) = afterCancel s a := by
    rw [gbn_step_ack_eq, if_neg (by omega)]
  rw [hstep]
  obtain ⟨c1, c2, c3, -⟩ := gbn_afterCancel_window s a
  obtain ⟨t1, t2, t3⟩ := gbn_afterCancel_timers s a
  exact ⟨c1, c2, c3, t1, t2, t3⟩

theorem gbn_stale_ack_witness :
    1 < (run defaultConfig [Event.sendWindow, Event.ack 3]).baseSeqNum ∧
    (step defaultConfig (run defaultConfig [Event.sendWindow, Event.ack 3])
      (Event.ack 1)).nextSeqNum
      = (run defaultConfig [Event.sendWindow, Event.ack 3]).nextSeqNum ∧
    (step defaultConfig (run defaultConfig [Event.sendWindow, Event.ack 3])
      (Event.ack 1)).dataOut = [0, 1, 2, 3, 4, 5, 6, 7] :=
  ⟨by decide,
   (gbn_stale_ack defaultConfig (run defaultConfig [Event.sendWindow, Event.ack 3]) 1
     (by decide)).2.1,
   by decide⟩

/-- C8, as stated, fails: after the first window is sent and `ACK(3)` has moved
`baseSeqNum` to 4, the timer of sequence number 1 is still armed; the stale `ACK(1)`
cancels it, so the set of armed timers changes. -/
theorem gbn_stale_ack_counterexample :
    (run defaultConfig [Event.sendWindow, Event.ack 3]).baseSeqNum = 4 ∧
    (1, 1) ∈ (run defaultConfig [Event.sendWindow, Event.ack 3]).pending ∧
    (1, 1) ∉ (step defaultConfig (run defaultConfig [Event.sendWindow, Event.ack 3])
      (Event.ack 1)).pending ∧
    (step defaultConfig (run defaultConfig [Event.sendWindow, Event.ack 3]) (Event.ack 1)).pending
      ≠ (run defaultConfig [Event.sendWindow, Event.ack 3]).pending := by
  decide

/-! ## Go-Back-N: sender, receiver and channel -/

theorem gbn_sysRun_snoc (cfg : Config) (evs : List SysEvent) (e : SysEvent) :
    sysRun cfg (evs ++ [e]) = sysStep cfg (sysRun cfg evs) e := by
  simp [sysRun, List.foldl_append]

/-- What `sendWindowLoop` does to the logs: the receiver's logs are kept, `dataOut` only
grows, and the sequence numbers added are below `maxPackets`. -/
theorem gbn_sendWindowLoop_logs (cfg : Config) (fuel : Nat) (s : State) :
    (sendWindowLoop cfg fuel s).rxLog = s.rxLog ∧
    (sendWindowLoop cfg fuel s).ackOut = s.ackOut ∧
    (∀ x ∈ s.dataOut, x ∈ (sendWindowLoop cfg fuel s).dataOut) ∧
    (∀ x ∈ (sendWindowLoop cfg fuel s).dataOut, x ∈ s.dataOut ∨ x < cfg.maxPackets) := by
  induction fuel generalizing s with
  | zero => exact ⟨rfl, rfl, fun x hx => hx, fun x hx => Or.inl hx⟩
  | succ n ih =>
    by_cases hg : s.nextSeqNum < wrap32 (s.baseSeqNum + cfg.windowSize) ∧
        s.nextSeqNum < cfg.maxPackets
    · have e : sendWindowLoop cfg (n + 1) s = sendWindowLoop cfg n (sendNext s) := by
        simp only [sendWindowLoop, if_pos hg]
      have hd : (sendNext s).dataOut = s.dataOut ++ [s.nextSeqNum] := rfl
      have hr : (sendNext s).rxLog = s.rxLog := rfl
      have ha : (sendNext s).ackOut = s.ackOut := rfl
      obtain ⟨h1, h2, h3, h4⟩ := ih (sendNext s)
      rw [e, h1, h2, hr, ha]
      refine ⟨rfl, rfl, ?_, ?_⟩
      · intro x hx
        exact h3 x (by rw [hd]; exact List.mem_append_left _ hx)
      · intro x hx
        rcases h4 x hx with h | h
        · rw [hd, List.mem_append, List.mem_singleton] at h
          rcases h with h | h
          · exact Or.inl h
          · right
            rw [h]
            exact hg.2
        · exact Or.inr h
    · rw [gbn_sendWindowLoop_of_not_guard cfg _ s hg]
      exact ⟨rfl, rfl, fun x hx => hx, fun x hx => Or.inl hx⟩

/-- The same for the timeout loop. -/
theorem gbn_timeoutLoop_logs (cfg : Config) (fuel i : Nat) (s : State) :
    (timeoutLoop cfg fuel i s).rxLog = s.rxLog ∧
    (timeoutLoop cfg fuel i s).ackOut = s.ackOut ∧
    (∀ x ∈ s.dataOut, x ∈ (timeoutLoop cfg fuel i s).dataOut) ∧
    (∀ x ∈ (timeoutLoop cfg fuel i s).dataOut, x ∈ s.dataOut ∨ x < cfg.maxPackets) := by
  induction fuel generalizing i s with
  | zero => exact ⟨rfl, rfl, fun x hx => hx, fun x hx => Or.inl hx⟩
  | succ n ih =>
    by_cases hg : i < wrap32 (s.baseSeqNum + cfg.windowSize) ∧ i < cfg.maxPackets
    · have e : timeoutLoop cfg (n + 1) i s = timeoutLoop cfg n (i + 1) (SendPacket i s) := by
        simp only [timeoutLoop, if_pos hg]
      have hd : (SendPacket i s).dataOut = s.dataOut ++ [i] := rfl
      have hr : (SendPacket i s).rxLog = s.rxLog := rfl
      have ha : (SendPacket i s).ackOut = s.ackOut := rfl
      obtain ⟨h1, h2, h3, h4⟩ := ih (i + 1) (SendPacket i s)
      rw [e, h1, h2, hr, ha]
      refine ⟨rfl, rfl, ?_, ?_⟩
      · intro x hx
        exact h3 x (by rw [hd]; exact List.mem_append_left _ hx)
      · intro x hx
        rcases h4 x hx with h | h
        · rw [hd, List.mem_append, List.mem_singleton] at h
          rcases h with h | h
          · exact Or.inl h
          · right
            rw [h]
            exact hg.2
        · exact Or.inr h
    · have e : timeoutLoop cfg (n + 1) i s = s := by
        simp only [timeoutLoop, if_neg hg]
      rw [e]
      exact ⟨rfl, rfl, fun x hx => hx, fun x hx => Or.inl hx⟩

theorem gbn_afterCancel_logs (s : State) (a : Nat) :
    (afterCancel s a).rxLog = s.rxLog ∧ (afterCancel s a).ackOut = s.ackOut := by
  unfold afterCancel
  cases s.timers a <;> simp [cancel]

/-- A sender-side change of the state that keeps the receiver's logs, only adds sequence
numbers below `maxPackets` to `dataOut`, and keeps `baseSeqNum`, keeps `SysInv`. -/
theorem gbn_sysInv_of_sender (cfg : Config) (y : System) (t : State) (h : SysInv cfg y)
    (h1 : t.rxLog = y.st.rxLog) (h2 : t.ackOut = y.st.ackOut)
    (h3 : ∀ x ∈ y.st.dataOut, x ∈ t.dataOut)
    (h4 : ∀ x ∈ t.dataOut, x ∈ y.st.dataOut ∨ x < cfg.maxPackets)
    (h5 : t.baseSeqNum = y.st.baseSeqNum) :
    SysInv cfg { y with st := t } := by
  obtain ⟨i1, i2, i3, i4⟩ := h
  refine ⟨?_, ?_, ?_, ?_⟩
  · intro x hx
    rcases h4 x hx with h | h
    · exact i1 x h
    · exact h
  · intro x hx
    rw [h1] at hx
    exact h3 x (i2 x hx)
  · intro x hx
    rw [h2] at hx
    rw [h1]
    exact i3 x hx
  · show t.baseSeqNum = 0 ∨ t.baseSeqNum - 1 ∈ t.rxLog
    rw [h5, h1]
    exact i4

theorem gbn_sysStep_inv (cfg : Config) (hc : cfg.maxPackets ≤ 4294967296) (y : System)
    (e : SysEvent) (h : SysInv cfg y) : SysInv cfg (sysStep cfg y e) := by
  cases e with
  | sendWindow =>
    obtain ⟨l1, l2, l3, l4⟩ := gbn_sendWindowLoop_logs cfg (cfg.maxPackets - y.st.nextSeqNum) y.st
    obtain ⟨w1, -, -, -⟩ := gbn_sendWindowLoop_window cfg (cfg.maxPackets - y.st.nextSeqNum) y.st
    exact gbn_sysInv_of_sender cfg y _ h l1 l2 l3 l4 w1
  | timeout uid =>
    simp only [sysStep, fire]
    cases y.st.pending.find? (fun e => e.1 = uid) with
    | none => exact h
    | some e =>
      obtain ⟨l1, l2, l3, l4⟩ := gbn_timeoutLoop_logs cfg
        (cfg.maxPackets - (cancel uid y.st).baseSeqNum) (cancel uid y.st).baseSeqNum
        { cancel uid y.st with nextSeqNum := (cancel uid y.st).baseSeqNum }
      obtain ⟨w1, -⟩ := gbn_timeoutLoop_window cfg
        (cfg.maxPackets - (cancel uid y.st).baseSeqNum) (cancel uid y.st).baseSeqNum
        { cancel uid y.st with nextSeqNum := (cancel uid y.st).baseSeqNum }
      exact gbn_sysInv_of_sender cfg y _ h l1 l2 l3 l4 w1
  | deliverData =>
    simp only [sysStep]
    cases hq : y.st.dataOut[y.dataPos]? with
    | none => exact h
    | some q =>
      have hmem : q ∈ y.st.dataOut := List.getElem?_mem hq
      obtain ⟨i1, i2, i3, i4⟩ := h
      simp only [ReceivePacket, List.foldl, handleFrame, if_true]
      refine ⟨i1, ?_, ?_, ?_⟩
      · intro x hx
        simp only [List.mem_append, List.mem_singleton] at hx
        rcases hx with hx | hx
        · exact i2 x hx
        · rw [hx]
          exact hmem
      · intro x hx
        simp only [List.mem_append, List.mem_singleton] at hx ⊢
        rcases hx with hx | hx
        · exact Or.inl (i3 x hx)
        · exact Or.inr hx
      · rcases i4 with i4 | i4
        · exact Or.inl i4
        · right
          simp only [List.mem_append, List.mem_singleton]
          exact Or.inl i4
  | dropData =>
    simp only [sysStep]
    cases y.st.dataOut[y.dataPos]? with
    | none => exact h
    | some q => exact h
  | deliverAck =>
    simp only [sysStep]
    cases hq : y.st.ackOut[y.ackPos]? with
    | none => exact h
    | some a =>
      have hmem : a ∈ y.st.ackOut := List.getElem?_mem hq
      obtain ⟨i1, i2, i3, i4⟩ := h
      have hrx : a ∈ y.st.rxLog := i3 a hmem
      have hlt : a < cfg.maxPackets := i1 a (i2 a hrx)
      obtain ⟨c1, -, c3, -⟩ := gbn_afterCancel_window y.st a
      obtain ⟨r1, r2⟩ := gbn_afterCancel_logs y.st a
      have hstep : ReceivePacket cfg [{ type := 1, seqNum := a }] y.st
          = step cfg y.st (Event.ack a) := rfl
      simp only [hstep]
      rw [gbn_step_ack_eq]
      -- the state right after `baseSeqNum = ackNum + 1`
      have hadv : SysInv cfg { y with st := advanceBase y.st a } := by
        refine ⟨?_, ?_, ?_, ?_⟩
        · intro x hx
          exact i1 x (by rw [← c3]; exact hx)
        · intro x hx
          show x ∈ (afterCancel y.st a).dataOut
          rw [c3]
          exact i2 x (by rw [← r1]; exact hx)
        · intro x hx
          show x ∈ (afterCancel y.st a).rxLog
          rw [r1]
          exact i3 x (by rw [← r2]; exact hx)
        · show wrap32 (a + 1) = 0 ∨ wrap32 (a + 1) - 1 ∈ (afterCancel y.st a).rxLog
          rw [r1]
          rcases Nat.lt_or_ge (a + 1) 4294967296 with hs | hs
          · right
            rw [gbn_wrap32_small hs]
            exact hrx
          · left
            have : a + 1 = 4294967296 := by omega
            rw [this]
            rfl
      split_ifs with hb hm
      · obtain ⟨l1, l2, l3, l4⟩ := gbn_sendWindowLoop_logs cfg
          (cfg.maxPackets - (advanceBase y.st a).nextSeqNum) (advanceBase y.st a)
        obtain ⟨w1, -, -, -⟩ := gbn_sendWindowLoop_window cfg
          (cfg.maxPackets - (advanceBase y.st a).nextSeqNum) (advanceBase y.st a)
        exact gbn_sysInv_of_sender cfg { y with st := advanceBase y.st a } _ hadv l1 l2 l3 l4 w1
      · exact hadv
      · refine ⟨?_, ?_, ?_, ?_⟩
        · intro x hx
          exact i1 x (by rw [← c3]; exact hx)
        · intro x hx
          show x ∈ (afterCancel y.st a).dataOut
          rw [c3]
          exact i2 x (by rw [← r1]; exact hx)
        · intro x hx
          show x ∈ (afterCancel y.st a).rxLog
          rw [r1]
          exact i3 x (by rw [← r2]; exact hx)
        · show (afterCancel y.st a).baseSeqNum = 0 ∨
            (afterCancel y.st a).baseSeqNum - 1 ∈ (afterCancel y.st a).rxLog
          rw [c1, r1]
          exact i4
  | dropAck =>
    simp only [sysStep]
    cases y.st.ackOut[y.ackPos]? with
    | none => exact h
    | some q => exact h

theorem gbn_sysRun_inv (cfg : Config) (hc : cfg.maxPackets ≤ 4294967296)
    (evs : List SysEvent) : SysInv cfg (sysRun cfg evs) := by
  induction evs using List.reverseRecOn with
  | nil => simp [sysRun, init, SysInv]
  | append_singleton l e ih =>
    rw [gbn_sysRun_snoc]
    exact gbn_sysStep_inv cfg hc _ e ih

/-- C4 (amended). Go-Back-N acknowledgement soundness: in the system made of the sender
and receiver handlers joined by a channel that may drop frames, in every reachable state
with `baseSeqNum > 0` the sequence number `baseSeqNum − 1` has been received by the
receiver (for `maxPackets` a 32-bit value). -/
theorem gbn_base_predecessor_received (cfg : Config) (hc : cfg.maxPackets ≤ 4294967296)
    (evs : List SysEvent) (hb : 0 < (sysRun cfg evs).st.baseSeqNum) :
    (sysRun cfg evs).st.baseSeqNum - 1 ∈ (sysRun cfg evs).st.rxLog := by
  rcases (gbn_sysRun_inv cfg hc evs).2.2.2 with h | h
  · omega
  · exact h

theorem gbn_base_predecessor_received_witness :
    defaultConfig.maxPackets ≤ 4294967296 ∧
    0 < (sysRun defaultConfig [SysEvent.sendWindow, SysEvent.dropData, SysEvent.deliverData,
      SysEvent.deliverAck]).st.baseSeqNum ∧
    (sysRun defaultConfig [SysEvent.sendWindow, SysEvent.dropData, SysEvent.deliverData,
      SysEvent.deliverAck]).st.baseSeqNum - 1
      ∈ (sysRun defaultConfig [SysEvent.sendWindow, SysEvent.dropData, SysEvent.deliverData,
        SysEvent.deliverAck]).st.rxLog :=
  ⟨by decide, by decide,
   gbn_base_predecessor_received defaultConfig (by decide)
     [SysEvent.sendWindow, SysEvent.dropData, SysEvent.deliverData, SysEvent.deliverAck]
     (by decide)⟩

/-- C4, as stated, fails: the first window 0, 1, 2, 3 is sent, the channel drops the DATA
frames 0, 1 and 2 and delivers 3; the receiver acknowledges 3 and the ACK moves
`baseSeqNum` to 4, although the receiver never received 0, 1 or 2. -/
theorem gbn_cumulative_ack_counterexample :
    (sysRun defaultConfig [SysEvent.sendWindow, SysEvent.dropData, SysEvent.dropData,
      SysEvent.dropData, SysEvent.deliverData, SysEvent.deliverAck]).st.baseSeqNum = 4 ∧
    (sysRun defaultConfig [SysEvent.sendWindow, SysEvent.dropData, SysEvent.dropData,
      SysEvent.dropData, SysEvent.deliverData, SysEvent.deliverAck]).st.rxLog = [3] ∧
    0 ∉ (sysRun defaultConfig [SysEvent.sendWindow, SysEvent.dropData, SysEvent.dropData,
      SysEvent.dropData, SysEvent.deliverData, SysEvent.deliverAck]).st.rxLog := by
  decide

end GoBackN

/-! ## Selective-Repeat: one timer for each sequence number -/

namespace SelectiveRepeat

theorem sr_filter_snd_length_le_one (l : List (Nat × Nat)) (h : (l.map Prod.snd).Nodup)
    (k : Nat) : (l.filter (fun e => e.2 = k)).length ≤ 1 := by
  induction l with
  | nil => simp
  | cons e l ih =>
    rw [List.map_cons, List.nodup_cons] at h
    obtain ⟨h1, h2⟩ := h
    by_cases hk : e.2 = k
    · have hnil : l.filter (fun e => e.2 = k) = [] := by
        rw [List.filter_eq_nil_iff]
        intro x hx hxk
        apply h1
        rw [List.mem_map]
        refine ⟨x, hx, ?_⟩
        rw [hk]
        simpa using hxk
      simp [List.filter_cons, hk, hnil]
    · simp only [List.filter_cons, hk, decide_False, Bool.false_eq_true, if_false]
      exact ih h2

theorem sr_cancel_oneTimer (id : Nat) (s : State) (h : OneTimer s) :
    OneTimer (cancel id s) := by
  obtain ⟨h1, h2⟩ := h
  refine ⟨?_, ?_⟩
  · exact (List.filter_sublist s.pending).map Prod.snd |>.nodup h1
  · intro e he
    simp only [cancel, List.mem_filter] at he
    exact h2 e he.1

theorem sr_sendNext_oneTimer (s : State) (h : OneTimer s) : OneTimer (sendNext s) := by
  obtain ⟨h1, h2⟩ := h
  refine ⟨?_, ?_⟩
  · show ((s.pending ++ [(s.nextUid, s.nextSeq)]).map Prod.snd).Nodup
    rw [List.map_append, List.map_singleton]
    refine List.Nodup.append h1 (List.nodup_singleton _) ?_
    intro x hx hx2
    rw [List.mem_singleton] at hx2
    rw [List.mem_map] at hx
    obtain ⟨e, he, hex⟩ := hx
    have := h2 e he
    omega
  · intro e he
    have he' : e ∈ s.pending ++ [(s.nextUid, s.nextSeq)] := he
    show e.2 < s.nextSeq + 1
    rw [List.mem_append, List.mem_singleton] at he'
    rcases he' with h | h
    · have := h2 e h
      omega
    · rw [h]
      exact Nat.lt_succ_self _

theorem sr_sendWindowLoop_oneTimer (cfg : Config) (fuel : Nat) (s : State) (h : OneTimer s) :
    OneTimer (sendWindowLoop cfg fuel s) := by
  induction fuel generalizing s with
  | zero => exact h
  | succ n ih =>
    simp only [sendWindowLoop]
    split_ifs with hg
    · exact ih (sendNext s) (sr_sendNext_oneTimer s h)
    · exact h

theorem sr_slideLoop_oneTimer (cfg : Config) (fuel : Nat) (s : State) (h : OneTimer s) :
    OneTimer (slideLoop cfg fuel s) := by
  induction fuel generalizing s with
  | zero => exact h
  | succ n ih =>
    simp only [slideLoop]
    split_ifs with hg
    · exact ih (slideNext s) h
    · exact h

theorem sr_afterCancel_oneTimer (s : State) (a : Nat) (h : OneTimer s) :
    OneTimer (afterCancel s a) := by
  unfold afterCancel
  cases ht : s.timers a with
  | none => exact h
  | some id =>
    have h' : OneTimer
        { s with ackReceived := (fun k => if k = a then true else s.ackReceived k) } := h
    exact sr_cancel_oneTimer id _ h'

theorem sr_fire_oneTimer (uid : Nat) (s : State) (h : OneTimer s) : OneTimer (fire uid s) := by
  unfold fire
  cases hf : s.pending.find? (fun e => e.1 = uid) with
  | none => exact h
  | some e =>
    have hmem : e ∈ s.pending := List.mem_of_find?_eq_some hf
    have huid : e.1 = uid := by simpa using List.find?_some hf
    obtain ⟨h1, h2⟩ := h
    obtain ⟨c1, c2⟩ := sr_cancel_oneTimer uid s ⟨h1, h2⟩
    refine ⟨?_, ?_⟩
    · show (((cancel uid s).pending ++ [((cancel uid s).nextUid, e.2)]).map Prod.snd).Nodup
      rw [List.map_append, List.map_singleton]
      refine List.Nodup.append c1 (List.nodup_singleton _) ?_
      intro x hx hx2
      rw [List.mem_singleton] at hx2
      rw [List.mem_map] at hx
      obtain ⟨e', he', hex⟩ := hx
      simp only [cancel, List.mem_filter] at he'
      have hsame : e' = e :=
        List.inj_on_of_nodup_map h1 he'.1 hmem (by rw [hex, hx2])
      rw [hsame] at he'
      simp [huid] at he'
    · intro e' he'
      have he2 : e' ∈ (cancel uid s).pending ++ [((cancel uid s).nextUid, e.2)] := he'
      show e'.2 < s.nextSeq
      rw [List.mem_append, List.mem_singleton] at he2
      rcases he2 with h | h
      · exact c2 e' h
      · rw [h]
        exact h2 e hmem

theorem sr_step_oneTimer (cfg : Config) (s : State) (e : Event) (h : OneTimer s) :
    OneTimer (step cfg s e) := by
  cases e with
  | sendWindow => exact sr_sendWindowLoop_oneTimer cfg _ s h
  | ack a =>
    rw [sr_step_ack_eq]
    have hA := sr_afterCancel_oneTimer s a h
    split_ifs
    · exact sr_sendWindowLoop_oneTimer cfg _ _ (sr_slideLoop_oneTimer cfg _ _ hA)
    · exact hA
  | timeout uid => exact sr_fire_oneTimer uid s h

theorem sr_run_oneTimer (cfg : Config) (evs : List Event) : OneTimer (run cfg evs) := by
  induction evs using List.reverseRecOn with
  | nil =>
    refine ⟨?_, ?_⟩
    · simp [run, init]
    · intro e he
      simp [run, init] at he
  | append_singleton l e ih =>
    rw [sr_run_snoc]
    exact sr_step_oneTimer cfg _ e ih

/-- C11. Selective-Repeat keeps at most one active timer for each sequence number: in
every state reached from the initial state by `SendWindow` calls, ACK frames (for
sequence numbers already sent, or any other) and timeout firings, at most one
scheduled, uncancelled timeout event carries a given sequence number. -/
theorem sr_one_timer_per_sequence (cfg : Config) (evs : List Event) (k : Nat) :
    ((run cfg evs).pending.filter (fun e => e.2 = k)).length ≤ 1 :=
  sr_filter_snd_length_le_one _ (sr_run_oneTimer cfg evs).1 k

end SelectiveRepeat

/-! ## Go-Back-N: the window fill -/

namespace GoBackN

/-- What `sendWindowLoop` does with enough fuel: it sends `nextSeqNum, nextSeqNum + 1, ...` up to
the end of the window, schedules one new event for each and stores its id in `timers`,
and leaves `nextSeqNum` at the end of the window. -/
theorem gbn_sendWindowLoop_spec (cfg : Config) (fuel : Nat) (s : State)
    (hf : cfg.maxPackets - s.nextSeqNum ≤ fuel) :
    (sendWindowLoop cfg fuel s).nextSeqNum = s.nextSeqNum + (burstEnd cfg s - s.nextSeqNum) ∧
    (sendWindowLoop cfg fuel s).dataOut
      = s.dataOut ++ List.range' s.nextSeqNum (burstEnd cfg s - s.nextSeqNum) ∧
    (sendWindowLoop cfg fuel s).pending = s.pending ++
      (List.range (burstEnd cfg s - s.nextSeqNum)).map (fun d => (s.nextUid + d, s.nextSeqNum + d)) ∧
    (sendWindowLoop cfg fuel s).nextUid = s.nextUid + (burstEnd cfg s - s.nextSeqNum) ∧
    (∀ k, (sendWindowLoop cfg fuel s).timers k
      = if s.nextSeqNum ≤ k ∧ k < burstEnd cfg s then some (s.nextUid + (k - s.nextSeqNum))
        else s.timers k) := by
  induction fuel generalizing s with
  | zero =>
    have h0 : burstEnd cfg s - s.nextSeqNum = 0 := by
      have := Nat.min_le_right (wrap32 (s.baseSeqNum + cfg.windowSize)) cfg.maxPackets
      simp only [burstEnd]
      omega
    rw [h0]
    refine ⟨rfl, by simp [sendWindowLoop], by simp [sendWindowLoop], rfl, ?_⟩
    intro k
    have : ¬ (s.nextSeqNum ≤ k ∧ k < burstEnd cfg s) := by omega
    simp [sendWindowLoop, this]
  | succ n ih =>
    by_cases hg : s.nextSeqNum < wrap32 (s.baseSeqNum + cfg.windowSize) ∧ s.nextSeqNum < cfg.maxPackets
    · have e : sendWindowLoop cfg (n + 1) s = sendWindowLoop cfg n (sendNext s) := by
        simp only [sendWindowLoop, if_pos hg]
      have hbe : burstEnd cfg (sendNext s) = burstEnd cfg s := rfl
      have hn : (sendNext s).nextSeqNum = s.nextSeqNum + 1 := rfl
      have hu : (sendNext s).nextUid = s.nextUid + 1 := rfl
      have hd : (sendNext s).dataOut = s.dataOut ++ [s.nextSeqNum] := rfl
      have hp : (sendNext s).pending = s.pending ++ [(s.nextUid, s.nextSeqNum)] := rfl
      have ht : ∀ k, (sendNext s).timers k
          = if k = s.nextSeqNum then some s.nextUid else s.timers k := fun _ => rfl
      have hlt : s.nextSeqNum < burstEnd cfg s := by
        simp only [burstEnd]
        exact lt_min hg.1 hg.2
      have hlen : burstEnd cfg s - s.nextSeqNum = (burstEnd cfg s - (s.nextSeqNum + 1)) + 1 := by omega
      obtain ⟨h1, h2, h3, h4, h5⟩ := ih (sendNext s) (by rw [hn]; omega)
      rw [hbe, hn] at h1 h2 h3 h4 h5
      rw [hu] at h3 h4 h5
      rw [hd] at h2
      rw [hp] at h3
      rw [e]
      refine ⟨by omega, ?_, ?_, by omega, ?_⟩
      · rw [h2, hlen, List.range'_succ]
        simp
      · rw [h3, hlen, GoBackN.gbn_burst_shift]
        simp
      · intro k
        rw [h5 k, ht k]
        by_cases hk : k = s.nextSeqNum
        · have c1 : ¬ (s.nextSeqNum + 1 ≤ k ∧ k < burstEnd cfg s) := by omega
          have c2 : s.nextSeqNum ≤ k ∧ k < burstEnd cfg s := by omega
          rw [if_neg c1, if_pos c2, if_pos hk]
          congr 1
          omega
        · by_cases hr : s.nextSeqNum + 1 ≤ k ∧ k < burstEnd cfg s
          · have c2 : s.nextSeqNum ≤ k ∧ k < burstEnd cfg s := by omega
            rw [if_pos hr, if_pos c2]
            congr 1
            omega
          · have c2 : ¬ (s.nextSeqNum ≤ k ∧ k < burstEnd cfg s) := by omega
            rw [if_neg hr, if_neg c2, if_neg hk]
    · have h0 : burstEnd cfg s - s.nextSeqNum = 0 := by
        simp only [burstEnd]
        have := Nat.min_le_left (wrap32 (s.baseSeqNum + cfg.windowSize)) cfg.maxPackets
        have := Nat.min_le_right (wrap32 (s.baseSeqNum + cfg.windowSize)) cfg.maxPackets
        rcases Nat.lt_or_ge s.nextSeqNum (wrap32 (s.baseSeqNum + cfg.windowSize)) with h | h
        · have : ¬ s.nextSeqNum < cfg.maxPackets := fun h' => hg ⟨h, h'⟩
          omega
        · omega
      rw [gbn_sendWindowLoop_of_not_guard cfg _ s hg, h0]
      refine ⟨rfl, by simp, by simp, rfl, ?_⟩
      intro k
      have : ¬ (s.nextSeqNum ≤ k ∧ k < burstEnd cfg s) := by omega
      simp [this]

/-- More fuel than `maxPackets - nextSeqNum` changes nothing: the loop has ended by then. -/
theorem gbn_sendWindowLoop_fuel_succ (cfg : Config) (fuel : Nat) (s : State)
    (hf : cfg.maxPackets - s.nextSeqNum ≤ fuel) :
    sendWindowLoop cfg (fuel + 1) s = sendWindowLoop cfg fuel s := by
  induction fuel generalizing s with
  | zero =>
    have hg : ¬ (s.nextSeqNum < wrap32 (s.baseSeqNum + cfg.windowSize) ∧ s.nextSeqNum < cfg.maxPackets) := by
      omega
    rw [gbn_sendWindowLoop_of_not_guard cfg _ s hg, gbn_sendWindowLoop_of_not_guard cfg _ s hg]
  | succ n ih =>
    by_cases hg : s.nextSeqNum < wrap32 (s.baseSeqNum + cfg.windowSize) ∧ s.nextSeqNum < cfg.maxPackets
    · have e1 : sendWindowLoop cfg (n + 1 + 1) s = sendWindowLoop cfg (n + 1) (sendNext s) := by
        simp only [sendWindowLoop, if_pos hg]
      have e2 : sendWindowLoop cfg (n + 1) s = sendWindowLoop cfg n (sendNext s) := by
        simp only [sendWindowLoop, if_pos hg]
      have hn : (sendNext s).nextSeqNum = s.nextSeqNum + 1 := rfl
      rw [e1, e2]
      exact ih (sendNext s) (by rw [hn]; omega)
    · rw [gbn_sendWindowLoop_of_not_guard cfg _ s hg, gbn_sendWindowLoop_of_not_guard cfg _ s hg]

theorem gbn_sendWindowLoop_fuel (cfg : Config) (fuel : Nat) (s : State)
    (hf : cfg.maxPackets - s.nextSeqNum ≤ fuel) :
    sendWindowLoop cfg fuel s = SendWindow cfg s := by
  induction fuel with
  | zero =>
    have : cfg.maxPackets - s.nextSeqNum = 0 := by omega
    simp only [SendWindow, this]
  | succ n ih =>
    rcases Nat.eq_or_lt_of_le hf with h | h
    · simp only [SendWindow, h]
    · rw [gbn_sendWindowLoop_fuel_succ cfg n s (by omega)]
      exact ih (by omega)

end GoBackN

/-! ## Selective-Repeat: the window fill -/

namespace SelectiveRepeat

/-- What `sendWindowLoop` does with enough fuel: it sends `nextSeq, nextSeq + 1, ...` up to
the end of the window, schedules one new event for each and stores its id in `timers`,
and leaves `nextSeq` at the end of the window. -/
theorem sr_sendWindowLoop_spec (cfg : Config) (fuel : Nat) (s : State)
    (hf : cfg.maxPackets - s.nextSeq ≤ fuel) :
    (sendWindowLoop cfg fuel s).nextSeq = s.nextSeq + (fillEnd cfg s - s.nextSeq) ∧
    (sendWindowLoop cfg fuel s).dataOut
      = s.dataOut ++ List.range' s.nextSeq (fillEnd cfg s - s.nextSeq) ∧
    (sendWindowLoop cfg fuel s).pending = s.pending ++
      (List.range (fillEnd cfg s - s.nextSeq)).map (fun d => (s.nextUid + d, s.nextSeq + d)) ∧
    (sendWindowLoop cfg fuel s).nextUid = s.nextUid + (fillEnd cfg s - s.nextSeq) ∧
    (∀ k, (sendWindowLoop cfg fuel s).timers k
      = if s.nextSeq ≤ k ∧ k < fillEnd cfg s then some (s.nextUid + (k - s.nextSeq))
        else s.timers k) := by
  induction fuel generalizing s with
  | zero =>
    have h0 : fillEnd cfg s - s.nextSeq = 0 := by
      have := Nat.min_le_right (wrap32 (s.baseSeq + cfg.windowSize)) cfg.maxPackets
      simp only [fillEnd]
      omega
    rw [h0]
    refine ⟨rfl, by simp [sendWindowLoop], by simp [sendWindowLoop], rfl, ?_⟩
    intro k
    have : ¬ (s.nextSeq ≤ k ∧ k < fillEnd cfg s) := by omega
    simp [sendWindowLoop, this]
  | succ n ih =>
    by_cases hg : s.nextSeq < wrap32 (s.baseSeq + cfg.windowSize) ∧ s.nextSeq < cfg.maxPackets
    · have e : sendWindowLoop cfg (n + 1) s = sendWindowLoop cfg n (sendNext s) := by
        simp only [sendWindowLoop, if_pos hg]
      have hbe : fillEnd cfg (sendNext s) = fillEnd cfg s := rfl
      have hn : (sendNext s).nextSeq = s.nextSeq + 1 := rfl
      have hu : (sendNext s).nextUid = s.nextUid + 1 := rfl
      have hd : (sendNext s).dataOut = s.dataOut ++ [s.nextSeq] := rfl
      have hp : (sendNext s).pending = s.pending ++ [(s.nextUid, s.nextSeq)] := rfl
      have ht : ∀ k, (sendNext s).timers k
          = if k = s.nextSeq then some s.nextUid else s.timers k := fun _ => rfl
      have hlt : s.nextSeq < fillEnd cfg s := by
        simp only [fillEnd]
        exact lt_min hg.1 hg.2
      have hlen : fillEnd cfg s - s.nextSeq = (fillEnd cfg s - (s.nextSeq + 1)) + 1 := by omega
      obtain ⟨h1, h2, h3, h4, h5⟩ := ih (sendNext s) (by rw [hn]; omega)
      rw [hbe, hn] at h1 h2 h3 h4 h5
      rw [hu] at h3 h4 h5
      rw [hd] at h2
      rw [hp] at h3
      rw [e]
      refine ⟨by omega, ?_, ?_, by omega, ?_⟩
      · rw [h2, hlen, List.range'_succ]
        simp
      · rw [h3, hlen, GoBackN.gbn_burst_shift]
        simp
      · intro k
        rw [h5 k, ht k]
        by_cases hk : k = s.nextSeq
        · have c1 : ¬ (s.nextSeq + 1 ≤ k ∧ k < fillEnd cfg s) := by omega
          have c2 : s.nextSeq ≤ k ∧ k < fillEnd cfg s := by omega
          rw [if_neg c1, if_pos c2, if_pos hk]
          congr 1
          omega
        · by_cases hr : s.nextSeq + 1 ≤ k ∧ k < fillEnd cfg s
          · have c2 : s.nextSeq ≤ k ∧ k < fillEnd cfg s := by omega
            rw [if_pos hr, if_pos c2]
            congr 1
            omega
          · have c2 : ¬ (s.nextSeq ≤ k ∧ k < fillEnd cfg s) := by omega
            rw [if_neg hr, if_neg c2, if_neg hk]
    · have h0 : fillEnd cfg s - s.nextSeq = 0 := by
        simp only [fillEnd]
        have := Nat.min_le_left (wrap32 (s.baseSeq + cfg.windowSize)) cfg.maxPackets
        have := Nat.min_le_right (wrap32 (s.baseSeq + cfg.windowSize)) cfg.maxPackets
        rcases Nat.lt_or_ge s.nextSeq (wrap32 (s.baseSeq + cfg.windowSize)) with h | h
        · have : ¬ s.nextSeq < cfg.maxPackets := fun h' => hg ⟨h, h'⟩
          omega
        · omega
      rw [sr_sendWindowLoop_of_not_guard cfg _ s hg, h0]
      refine ⟨rfl, by simp, by simp, rfl, ?_⟩
      intro k
      have : ¬ (s.nextSeq ≤ k ∧ k < fillEnd cfg s) := by omega
      simp [this]

/-- More fuel than `maxPackets - nextSeq` changes nothing: the loop has ended by then. -/
theorem sr_sendWindowLoop_fuel_succ (cfg : Config) (fuel : Nat) (s : State)
    (hf : cfg.maxPackets - s.nextSeq ≤ fuel) :
    sendWindowLoop cfg (fuel + 1) s = sendWindowLoop cfg fuel s := by
  induction fuel generalizing s with
  | zero =>
    have hg : ¬ (s.nextSeq < wrap32 (s.baseSeq + cfg.windowSize) ∧ s.nextSeq < cfg.maxPackets) := by
      omega
    rw [sr_sendWindowLoop_of_not_guard cfg _ s hg, sr_sendWindowLoop_of_not_guard cfg _ s hg]
  | succ n ih =>
    by_cases hg : s.nextSeq < wrap32 (s.baseSeq + cfg.windowSize) ∧ s.nextSeq < cfg.maxPackets
    · have e1 : sendWindowLoop cfg (n + 1 + 1) s = sendWindowLoop cfg (n + 1) (sendNext s) := by
        simp only [sendWindowLoop, if_pos hg]
      have e2 : sendWindowLoop cfg (n + 1) s = sendWindowLoop cfg n (sendNext s) := by
        simp only [sendWindowLoop, if_pos hg]
      have hn : (sendNext s).nextSeq = s.nextSeq + 1 := rfl
      rw [e1, e2]
      exact ih (sendNext s) (by rw [hn]; omega)
    · rw [sr_sendWindowLoop_of_not_guard cfg _ s hg, sr_sendWindowLoop_of_not_guard cfg _ s hg]

theorem sr_sendWindowLoop_fuel (cfg : Config) (fuel : Nat) (s : State)
    (hf : cfg.maxPackets - s.nextSeq ≤ fuel) :
    sendWindowLoop cfg fuel s = SendWindow cfg s := by
  induction fuel with
  | zero =>
    have : cfg.maxPackets - s.nextSeq = 0 := by omega
    simp only [SendWindow, this]
  | succ n ih =>
    rcases Nat.eq_or_lt_of_le hf with h | h
    · simp only [SendWindow, h]
    · rw [sr_sendWindowLoop_fuel_succ cfg n s (by omega)]
      exact ih (by omega)

end SelectiveRepeat

/-! ## Window fill of both senders -/

/-- C13. Window fill: for every sender state of Go-Back-N and of Selective-Repeat whose
`base + windowSize` fits in 32 bits, with `m = min(base + windowSize, maxPackets)`,
`SendWindow` terminates (fuel beyond `maxPackets - next` changes nothing); if `next < m`
it sends exactly the DATA frames `next, ..., m − 1` in ascending order, schedules one
timer event for each and stores its id in `timers`, and ends with `next = m` and `base`
unchanged; if `next ≥ m` it sends nothing and changes no state. -/
theorem sendWindow_fills_window (cfg : Config) (g : GoBackN.State) (r : SelectiveRepeat.State)
    (hg : g.baseSeqNum + cfg.windowSize < 4294967296)
    (hr : r.baseSeq + cfg.windowSize < 4294967296) :
    ((∀ fuel, cfg.maxPackets - g.nextSeqNum ≤ fuel →
        GoBackN.sendWindowLoop cfg fuel g = GoBackN.SendWindow cfg g) ∧
      (g.nextSeqNum < min (g.baseSeqNum + cfg.windowSize) cfg.maxPackets →
        (GoBackN.SendWindow cfg g).dataOut = g.dataOut ++ List.range' g.nextSeqNum
          (min (g.baseSeqNum + cfg.windowSize) cfg.maxPackets - g.nextSeqNum) ∧
        (GoBackN.SendWindow cfg g).pending = g.pending ++
          (List.range (min (g.baseSeqNum + cfg.windowSize) cfg.maxPackets - g.nextSeqNum)).map
            (fun d => (g.nextUid + d, g.nextSeqNum + d)) ∧
        (∀ k, g.nextSeqNum ≤ k → k < min (g.baseSeqNum + cfg.windowSize) cfg.maxPackets →
          (GoBackN.SendWindow cfg g).timers k = some (g.nextUid + (k - g.nextSeqNum))) ∧
        (GoBackN.SendWindow cfg g).nextSeqNum
          = min (g.baseSeqNum + cfg.windowSize) cfg.maxPackets ∧
        (GoBackN.SendWindow cfg g).baseSeqNum = g.baseSeqNum) ∧
      (min (g.baseSeqNum + cfg.windowSize) cfg.maxPackets ≤ g.nextSeqNum →
        GoBackN.SendWindow cfg g = g)) ∧
    ((∀ fuel, cfg.maxPackets - r.nextSeq ≤ fuel →
        SelectiveRepeat.sendWindowLoop cfg fuel r = SelectiveRepeat.SendWindow cfg r) ∧
      (r.nextSeq < min (r.baseSeq + cfg.windowSize) cfg.maxPackets →
        (SelectiveRepeat.SendWindow cfg r).dataOut = r.dataOut ++ List.range' r.nextSeq
          (min (r.baseSeq + cfg.windowSize) cfg.maxPackets - r.nextSeq) ∧
        (SelectiveRepeat.SendWindow cfg r).pending = r.pending ++
          (List.range (min (r.baseSeq + cfg.windowSize) cfg.maxPackets - r.nextSeq)).map
            (fun d => (r.nextUid + d, r.nextSeq + d)) ∧
        (∀ k, r.nextSeq ≤ k → k < min (r.baseSeq + cfg.windowSize) cfg.maxPackets →
          (SelectiveRepeat.SendWindow cfg r).timers k = some (r.nextUid + (k - r.nextSeq))) ∧
        (SelectiveRepeat.SendWindow cfg r).nextSeq
          = min (r.baseSeq + cfg.windowSize) cfg.maxPackets ∧
        (SelectiveRepeat.SendWindow cfg r).baseSeq = r.baseSeq) ∧
      (min (r.baseSeq + cfg.windowSize) cfg.maxPackets ≤ r.nextSeq →
        SelectiveRepeat.SendWindow cfg r = r)) := by
  have eg : GoBackN.burstEnd cfg g = min (g.baseSeqNum + cfg.windowSize) cfg.maxPackets := by
    simp only [GoBackN.burstEnd, GoBackN.gbn_wrap32_small hg]
  have er : SelectiveRepeat.fillEnd cfg r = min (r.baseSeq + cfg.windowSize) cfg.maxPackets := by
    simp only [SelectiveRepeat.fillEnd, SelectiveRepeat.sr_wrap32_small hr]
  constructor
  · obtain ⟨h1, h2, h3, -, h5⟩ :=
      GoBackN.gbn_sendWindowLoop_spec cfg (cfg.maxPackets - g.nextSeqNum) g (le_refl _)
    obtain ⟨w1, -, -, -⟩ :=
      GoBackN.gbn_sendWindowLoop_window cfg (cfg.maxPackets - g.nextSeqNum) g
    rw [eg] at h1 h2 h3 h5
    refine ⟨fun fuel hf => GoBackN.gbn_sendWindowLoop_fuel cfg fuel g hf, ?_, ?_⟩
    · intro hlt
      refine ⟨h2, h3, ?_, ?_, w1⟩
      · intro k hk1 hk2
        have := h5 k
        rw [if_pos ⟨hk1, hk2⟩] at this
        exact this
      · show (GoBackN.sendWindowLoop cfg (cfg.maxPackets - g.nextSeqNum) g).nextSeqNum = _
        omega
    · intro hle
      apply GoBackN.gbn_sendWindowLoop_of_not_guard
      rw [GoBackN.gbn_wrap32_small hg]
      intro hgd
      have := lt_min hgd.1 hgd.2
      omega
  · obtain ⟨h1, h2, h3, -, h5⟩ :=
      SelectiveRepeat.sr_sendWindowLoop_spec cfg (cfg.maxPackets - r.nextSeq) r (le_refl _)
    obtain ⟨w1, -, -, -, -⟩ :=
      SelectiveRepeat.sr_sendWindowLoop_window cfg (cfg.maxPackets - r.nextSeq) r
    rw [er] at h1 h2 h3 h5
    refine ⟨fun fuel hf => SelectiveRepeat.sr_sendWindowLoop_fuel cfg fuel r hf, ?_, ?_⟩
    · intro hlt
      refine ⟨h2, h3, ?_, ?_, w1⟩
      · intro k hk1 hk2
        have := h5 k
        rw [if_pos ⟨hk1, hk2⟩] at this
        exact this
      · show (SelectiveRepeat.sendWindowLoop cfg (cfg.maxPackets - r.nextSeq) r).nextSeq = _
        omega
    · intro hle
      apply SelectiveRepeat.sr_sendWindowLoop_of_not_guard
      rw [SelectiveRepeat.sr_wrap32_small hr]
      intro hgd
      have := lt_min hgd.1 hgd.2
      omega

theorem sendWindow_fills_window_witness :
    GoBackN.init.baseSeqNum + defaultConfig.windowSize < 4294967296 ∧
    SelectiveRepeat.init.baseSeq + defaultConfig.windowSize < 4294967296 ∧
    GoBackN.init.nextSeqNum
      < min (GoBackN.init.baseSeqNum + defaultConfig.windowSize) defaultConfig.maxPackets ∧
    (GoBackN.SendWindow defaultConfig GoBackN.init).nextSeqNum
      = min (GoBackN.init.baseSeqNum + defaultConfig.windowSize) defaultConfig.maxPackets ∧
    (GoBackN.SendWindow defaultConfig GoBackN.init).dataOut = [0, 1, 2, 3] ∧
    (SelectiveRepeat.SendWindow defaultConfig SelectiveRepeat.init).dataOut = [0, 1, 2, 3] :=
  ⟨by decide, by decide, by decide,
   ((sendWindow_fills_window defaultConfig GoBackN.init SelectiveRepeat.init
     (by decide) (by decide)).1.2.1 (by decide)).2.2.2.1,
   by decide, by decide⟩

/-! ## Selective-Repeat: the ACK branch -/

namespace SelectiveRepeat

theorem sr_SendPacket_fresh (i : Nat) (s : State) (h : Fresh s) : Fresh (SendPacket i s) := by
  obtain ⟨h1, h2⟩ := h
  refine ⟨?_, ?_⟩
  · intro e he
    simp only [SendPacket, List.mem_append, List.mem_singleton] at he ⊢
    rcases he with he | he
    · have := h1 e he
      omega
    · rw [he]
      exact Nat.lt_succ_self _
  · intro k id hk
    simp only [SendPacket] at hk ⊢
    split_ifs at hk with hki
    · have : s.nextUid = id := Option.some.inj hk
      omega
    · have := h2 k id hk
      omega

theorem sr_cancel_fresh (id : Nat) (s : State) (h : Fresh s) : Fresh (cancel id s) := by
  obtain ⟨h1, h2⟩ := h
  refine ⟨?_, h2⟩
  intro e he
  simp only [cancel, List.mem_filter] at he
  exact h1 e he.1

theorem sr_afterCancel_fresh (s : State) (a : Nat) (h : Fresh s) : Fresh (afterCancel s a) := by
  unfold afterCancel
  cases ht : s.timers a with
  | none => exact h
  | some id =>
    have h' : Fresh
        { s with ackReceived := (fun k => if k = a then true else s.ackReceived k) } := h
    obtain ⟨h1, h2⟩ := sr_cancel_fresh id _ h'
    refine ⟨h1, ?_⟩
    intro k id' hk
    simp only at hk
    split_ifs at hk with hka
    exact h2 k id' hk

theorem sr_sendWindowLoop_fresh (cfg : Config) (fuel : Nat) (s : State) (h : Fresh s) :
    Fresh (sendWindowLoop cfg fuel s) := by
  induction fuel generalizing s with
  | zero => exact h
  | succ n ih =>
    simp only [sendWindowLoop]
    split_ifs with hg
    · exact ih (sendNext s) (sr_SendPacket_fresh s.nextSeq s h)
    · exact h

/-- The slide loop changes `baseSeq` only. -/
theorem sr_slideLoop_rest (cfg : Config) (fuel : Nat) (s : State) :
    (slideLoop cfg fuel s).pending = s.pending ∧
    (slideLoop cfg fuel s).dataOut = s.dataOut ∧
    (slideLoop cfg fuel s).nextUid = s.nextUid ∧
    (Fresh s → Fresh (slideLoop cfg fuel s)) ∧
    (∀ c : Config, InRange c s → InRange c (slideLoop cfg fuel s)) := by
  induction fuel generalizing s with
  | zero => exact ⟨rfl, rfl, rfl, fun h => h, fun _ h => h⟩
  | succ n ih =>
    simp only [slideLoop]
    split_ifs with hg
    · obtain ⟨h1, h2, h3, h4, h5⟩ := ih (slideNext s)
      exact ⟨h1, h2, h3, fun h => h4 h, fun c h => h5 c h⟩
    · exact ⟨rfl, rfl, rfl, fun h => h, fun _ h => h⟩

theorem sr_fire_fresh (uid : Nat) (s : State) (h : Fresh s) : Fresh (fire uid s) := by
  unfold fire
  cases s.pending.find? (fun e => e.1 = uid) with
  | none => exact h
  | some e => exact sr_SendPacket_fresh e.2 _ (sr_cancel_fresh uid s h)

theorem sr_step_fresh (cfg : Config) (s : State) (e : Event) (h : Fresh s) :
    Fresh (step cfg s e) := by
  cases e with
  | sendWindow => exact sr_sendWindowLoop_fresh cfg _ s h
  | ack a =>
    rw [sr_step_ack_eq]
    have hA := sr_afterCancel_fresh s a h
    split_ifs
    · exact sr_sendWindowLoop_fresh cfg _ _ ((sr_slideLoop_rest cfg _ _).2.2.2.1 hA)
    · exact hA
  | timeout uid => exact sr_fire_fresh uid s h

theorem sr_run_fresh (cfg : Config) (evs : List Event) : Fresh (run cfg evs) := by
  induction evs using List.reverseRecOn with
  | nil =>
    refine ⟨?_, ?_⟩
    · intro e he
      simp [run, init] at he
    · intro k id hk
      simp [run, init] at hk
  | append_singleton l e ih =>
    rw [sr_run_snoc]
    exact sr_step_fresh cfg _ e ih

/-- The timer cancellation of the ACK branch removes the events with the id stored in
`timers[a]` and nothing else, and sends nothing. -/
theorem sr_afterCancel_pending (s : State) (a : Nat) :
    (∀ e, e ∈ (afterCancel s a).pending ↔ (e ∈ s.pending ∧ s.timers a ≠ some e.1)) ∧
    (afterCancel s a).nextUid = s.nextUid ∧
    (afterCancel s a).dataOut = s.dataOut := by
  unfold afterCancel
  cases ht : s.timers a with
  | none => simp
  | some id =>
    refine ⟨?_, rfl, rfl⟩
    intro e
    simp only [cancel, List.mem_filter, ne_eq, decide_not, Bool.not_eq_true',
      decide_eq_false_iff_not, Option.some.injEq]
    constructor
    · rintro ⟨h1, h2⟩
      exact ⟨h1, fun h => h2 h.symm⟩
    · rintro ⟨h1, h2⟩
      exact ⟨h1, fun h => h2 h.symm⟩

/-- C12. Selective-Repeat onAck: for every reachable sender state and every ACK with
sequence number `a`, the handler records `a` as acknowledged and cancels the timer whose
handle `timers[a]` holds; if `a = baseSeq` the new `baseSeq` is the smallest `j ≥` old
`baseSeq` such that `j` is not acknowledged or `j = maxPackets`, and the window is then
refilled (`nextSeq` becomes `max(nextSeq, min(baseSeq + windowSize, maxPackets))` with the
DATA frames in between sent in ascending order); if `a ≠ baseSeq` then `baseSeq` and
`nextSeq` are unchanged and no DATA frame is sent
(for a configuration whose `maxPackets + windowSize` fits in 32 bits, as 15 + 4 does). -/
theorem sr_ack_slide (cfg : Config) (hc : cfg.maxPackets + cfg.windowSize < 4294967296)
    (evs : List Event) (a : Nat) :
    (step cfg (run cfg evs) (Event.ack a)).ackReceived a = true ∧
    (∀ id, (run cfg evs).timers a = some id →
      ∀ k, (id, k) ∉ (step cfg (run cfg evs) (Event.ack a)).pending) ∧
    (a = (run cfg evs).baseSeq →
      (run cfg evs).baseSeq ≤ (step cfg (run cfg evs) (Event.ack a)).baseSeq ∧
      ((step cfg (run cfg evs) (Event.ack a)).ackReceived
          (step cfg (run cfg evs) (Event.ack a)).baseSeq = false ∨
        (step cfg (run cfg evs) (Event.ack a)).baseSeq = cfg.maxPackets) ∧
      (∀ j, (run cfg evs).baseSeq ≤ j → j < (step cfg (run cfg evs) (Event.ack a)).baseSeq →
        (step cfg (run cfg evs) (Event.ack a)).ackReceived j = true ∧ j ≠ cfg.maxPackets) ∧
      (step cfg (run cfg evs) (Event.ack a)).nextSeq
        = max (run cfg evs).nextSeq
            (min ((step cfg (run cfg evs) (Event.ack a)).baseSeq + cfg.windowSize)
              cfg.maxPackets) ∧
      (step cfg (run cfg evs) (Event.ack a)).dataOut
        = (run cfg evs).dataOut ++ List.range' (run cfg evs).nextSeq
            ((step cfg (run cfg evs) (Event.ack a)).nextSeq - (run cfg evs).nextSeq)) ∧
    (a ≠ (run cfg evs).baseSeq →
      (step cfg (run cfg evs) (Event.ack a)).baseSeq = (run cfg evs).baseSeq ∧
      (step cfg (run cfg evs) (Event.ack a)).nextSeq = (run cfg evs).nextSeq ∧
      (step cfg (run cfg evs) (Event.ack a)).dataOut = (run cfg evs).dataOut) := by
  have hfr := sr_run_fresh cfg evs
  obtain ⟨i1, i2, i3⟩ := sr_run_windowInv cfg hc evs
  generalize run cfg evs = s at hfr i1 i2 i3
  obtain ⟨c1, c2, c3⟩ := sr_afterCancel_window s a
  obtain ⟨p1, p2, p3⟩ := sr_afterCancel_pending s a
  have ca : (afterCancel s a).ackReceived a = true := by rw [c3]; simp
  obtain ⟨l1, l2, l3, l4, l5⟩ :=
    sr_slideLoop_window cfg (cfg.maxPackets - (afterCancel s a).baseSeq) (afterCancel s a)
  obtain ⟨-, lx⟩ :=
    sr_slideLoop_exit cfg (cfg.maxPackets - (afterCancel s a).baseSeq) (afterCancel s a)
  have lx := lx (le_refl _)
  obtain ⟨r1, r2, r3, -, -⟩ :=
    sr_slideLoop_rest cfg (cfg.maxPackets - (afterCancel s a).baseSeq) (afterCancel s a)
  rw [sr_step_ack_eq]
  generalize hT : slideLoop cfg (cfg.maxPackets - (afterCancel s a).baseSeq) (afterCancel s a)
    = T at l1 l2 l3 l4 l5 lx r1 r2 r3
  obtain ⟨w1, w2, -, -, -⟩ := sr_sendWindowLoop_window cfg (cfg.maxPackets - T.nextSeq) T
  obtain ⟨s1, s2, s3, -, -⟩ :=
    sr_sendWindowLoop_spec cfg (cfg.maxPackets - T.nextSeq) T (le_refl _)
  have hTb : T.baseSeq ≤ cfg.maxPackets := by omega
  have hfe : fillEnd cfg T = min (T.baseSeq + cfg.windowSize) cfg.maxPackets := by
    simp only [fillEnd, sr_wrap32_small (show T.baseSeq + cfg.windowSize < 4294967296 by omega)]
  rw [hfe] at s1 s2 s3
  have hS : SendWindow cfg T = sendWindowLoop cfg (cfg.maxPackets - T.nextSeq) T := rfl
  refine ⟨?_, ?_, ?_, ?_⟩
  · split_ifs with hb
    · rw [hS, w2, l2]
      exact ca
    · exact ca
  · intro id hid k hmem
    split_ifs at hmem with hb
    · rw [hS, s3, r1, List.mem_append] at hmem
      rcases hmem with h | h
      · exact ((p1 (id, k)).1 h).2 hid
      · rw [List.mem_map] at h
        obtain ⟨d, -, hd⟩ := h
        have h1 : T.nextUid + d = id := congrArg Prod.fst hd
        have h2 := hfr.2 a id hid
        omega
    · exact ((p1 (id, k)).1 hmem).2 hid
  · intro hb
    rw [if_pos (by rw [c1]; exact hb), hS, w1, w2, s1, s2]
    refine ⟨by omega, ?_, ?_, ?_, ?_⟩
    · rcases Bool.eq_false_or_eq_true (T.ackReceived T.baseSeq) with h | h
      · right
        have : ¬ T.baseSeq < cfg.maxPackets := fun h' => lx ⟨h, h'⟩
        omega
      · exact Or.inl h
    · intro j hj1 hj2
      refine ⟨?_, by omega⟩
      rw [l2]
      exact l5 j (by omega) hj2
    · omega
    · rw [r2, p3, l1, c2]
      congr 2
      omega
  · intro hb
    rw [if_neg (by rw [c1]; exact hb)]
    exact ⟨c1, c2, p3⟩

end SelectiveRepeat

/-! ## Frame codec -/

/-- C18. Frame codec round trip: for every kind in {0 (DATA), 1 (ACK)} and every 32-bit
unsigned sequence number, the frame built by the Go-Back-N and Selective-Repeat code is
exactly 5 bytes, with byte 0 equal to the kind tag and bytes 1–4 the bytes of the
sequence number, and decoding that frame in `ReceivePacket` yields the same kind and the
same sequence number, whatever the byte order of the host. -/
theorem frame_codec_round_trip (o : ByteOrder) (kind seqNum : Nat)
    (hk : kind = 0 ∨ kind = 1) (hn : seqNum < 4294967296) :
    (encodeFrame o kind seqNum).length = 5 ∧
    (encodeFrame o kind seqNum).head? = some kind ∧
    (encodeFrame o kind seqNum).tail = u32Bytes o seqNum ∧
    (∀ b ∈ encodeFrame o kind seqNum, b < 256) ∧
    decodeFrame o (encodeFrame o kind seqNum) = some { type := kind, seqNum := seqNum } := by
  cases o with
  | little =>
    refine ⟨rfl, rfl, rfl, ?_, ?_⟩
    · intro b hb
      simp only [encodeFrame, u32Bytes, List.mem_cons, List.mem_singleton, List.not_mem_nil,
        or_false] at hb
      omega
    · simp only [encodeFrame, u32Bytes, decodeFrame, u32OfBytes, Option.some.injEq,
        Frame.mk.injEq, true_and]
      omega
  | big =>
    refine ⟨rfl, rfl, rfl, ?_, ?_⟩
    · intro b hb
      simp only [encodeFrame, u32Bytes, List.mem_cons, List.mem_singleton, List.not_mem_nil,
        or_false] at hb
      omega
    · simp only [encodeFrame, u32Bytes, decodeFrame, u32OfBytes, Option.some.injEq,
        Frame.mk.injEq, true_and]
      omega

theorem frame_codec_round_trip_witness :
    (1 = 0 ∨ 1 = 1) ∧ 305419896 < 4294967296 ∧
    encodeFrame ByteOrder.little 1 305419896 = [1, 120, 86, 52, 18] ∧
    decodeFrame ByteOrder.little (encodeFrame ByteOrder.little 1 305419896)
      = some { type := 1, seqNum := 305419896 } :=
  ⟨by decide, by decide, by decide,
   (frame_codec_round_trip ByteOrder.little 1 305419896 (by decide) (by decide)).2.2.2.2⟩

/-! ## Stop-and-Wait -/

namespace StopAndWait

theorem sw_sysRun_snoc (maxPackets : Nat) (evs : List SysEvent) (e : SysEvent) :
    sysRun maxPackets (evs ++ [e]) = sysStep maxPackets (sysRun maxPackets evs) e := by
  simp [sysRun, List.foldl_append]

theorem sw_sysRun_append (maxPackets : Nat) (evs more : List SysEvent) :
    sysRun maxPackets (evs ++ more) = more.foldl (sysStep maxPackets) (sysRun maxPackets evs) := by
  simp [sysRun, List.foldl_append]

/-- One round without loss takes `afterRounds n` to `afterRounds (n + 1)`: a new DATA
frame is sent, counted by the receiver and acknowledged. -/
theorem sw_round (maxPackets n : Nat) (hm : maxPackets < 4294967296) (hn : n < maxPackets) :
    [SysEvent.timer, SysEvent.deliverData, SysEvent.deliverAck].foldl (sysStep maxPackets)
      (afterRounds n) = afterRounds (n + 1) := by
  have h1 : ¬ maxPackets ≤ n := by omega
  have hw : wrap32 (n + 1) = n + 1 := Nat.mod_eq_of_lt (by omega)
  simp [afterRounds, sysStep, fire, SendPacket, ReceivePacket, handleFrame, h1, hw,
    List.range_succ]

theorem sw_lossless_rounds (maxPackets n : Nat) (hm : maxPackets < 4294967296)
    (hn : n ≤ maxPackets) : sysRun maxPackets (losslessEvents n) = afterRounds n := by
  induction n with
  | zero => rfl
  | succ k ih =>
    rw [losslessEvents, sw_sysRun_append, ih (by omega)]
    exact sw_round maxPackets k hm (by omega)

/-- C16. Stop-and-Wait without loss: for every `maxPackets` (a 32-bit value), in the run
where each DATA frame and its ACK are delivered before the timer fires again, every round
up to `maxPackets` sends one new DATA frame with no retransmission; after `maxPackets`
rounds the sender has sent exactly `maxPackets` DATA frames, and when the timer fires
next it takes the stop branch: no frame is sent, no `SendPacket` is scheduled any more
and the retransmission branch was never taken. -/
theorem sw_lossless_run (maxPackets : Nat) (hm : maxPackets < 4294967296) :
    (∀ n, n ≤ maxPackets →
      (sysRun maxPackets (losslessEvents n)).st.dataOut.length = n ∧
      (sysRun maxPackets (losslessEvents n)).st.retransmissions = 0 ∧
      (sysRun maxPackets (losslessEvents n)).st.stopped = false) ∧
    (sysRun maxPackets (losslessEvents maxPackets ++ [SysEvent.timer])).st.dataOut.length
      = maxPackets ∧
    (sysRun maxPackets (losslessEvents maxPackets ++ [SysEvent.timer])).st.retransmissions = 0 ∧
    (sysRun maxPackets (losslessEvents maxPackets ++ [SysEvent.timer])).st.stopped = true ∧
    (sysRun maxPackets (losslessEvents maxPackets ++ [SysEvent.timer])).st.scheduled = 0 := by
  refine ⟨?_, ?_⟩
  · intro n hn
    rw [sw_lossless_rounds maxPackets n hm hn]
    simp [afterRounds]
  · rw [sw_sysRun_snoc, sw_lossless_rounds maxPackets maxPackets hm (le_refl _)]
    simp [afterRounds, sysStep, fire, SendPacket]

theorem sw_lossless_run_witness :
    (5 : Nat) < 4294967296 ∧
    (sysRun 5 (losslessEvents 5 ++ [SysEvent.timer])).st.dataOut.length = 5 ∧
    (sysRun 5 (losslessEvents 5 ++ [SysEvent.timer])).st.dataOut = [0, 1, 2, 3, 4] :=
  ⟨by decide, (sw_lossless_run 5 (by decide)).2.1, by decide⟩

/-- C15 (amended). Stop-and-Wait duplicate DATA: every reception of a DATA frame, a
retransmitted one included, makes the receiver emit an ACK and increment `seqNum` and
`packetCount` (mod 2^32); after the second reception of a frame both counters are one
more than after the first. -/
theorem sw_data_always_counted (s : State) :
    (ReceivePacket [0] s).ackOut = s.ackOut ++ [s.seqNum] ∧
    (ReceivePacket [0] s).packetCount = wrap32 (s.packetCount + 1) ∧
    (ReceivePacket [0] s).seqNum = wrap32 (s.seqNum + 1) ∧
    (ReceivePacket [0] (ReceivePacket [0] s)).packetCount
      = wrap32 ((ReceivePacket [0] s).packetCount + 1) ∧
    (ReceivePacket [0] (ReceivePacket [0] s)).seqNum
      = wrap32 ((ReceivePacket [0] s).seqNum + 1) := by
  simp [ReceivePacket, handleFrame]

/-- C15, as stated, fails: the DATA frame is sent and received, its ACK is dropped, the
timer fires and the frame is retransmitted and received again; `packetCount` and `seqNum`
were 1 after the first reception and are 2 after the second. -/
theorem sw_duplicate_data_counterexample :
    (sysRun 5 [SysEvent.timer, SysEvent.deliverData]).st.packetCount = 1 ∧
    (sysRun 5 [SysEvent.timer, SysEvent.deliverData]).st.seqNum = 1 ∧
    (sysRun 5 [SysEvent.timer, SysEvent.deliverData, SysEvent.dropAck, SysEvent.timer,
      SysEvent.deliverData]).st.retransmissions = 1 ∧
    (sysRun 5 [SysEvent.timer, SysEvent.deliverData, SysEvent.dropAck, SysEvent.timer,
      SysEvent.deliverData]).st.packetCount = 2 ∧
    (sysRun 5 [SysEvent.timer, SysEvent.deliverData, SysEvent.dropAck, SysEvent.timer,
      SysEvent.deliverData]).st.seqNum = 2 := by
  decide

/-- C17 (amended). Stop-and-Wait on ACK: for every sender state, processing an ACK only
sets `ackReceived`; it sends no DATA frame and schedules nothing. The next DATA frame is
sent when the scheduled `SendPacket` runs: with `ackReceived` set and
`packetCount < maxPackets` it sends one new DATA frame, not a retransmission. -/
theorem sw_ack_sets_flag_only (maxPackets : Nat) (s : State) :
    ReceivePacket [1] s = { s with ackReceived := true } ∧
    (s.stopped = false → 0 < s.scheduled → s.packetCount < maxPackets →
      (fire maxPackets (ReceivePacket [1] s)).dataOut = s.dataOut ++ [s.seqNum] ∧
      (fire maxPackets (ReceivePacket [1] s)).retransmissions = s.retransmissions) := by
  refine ⟨by simp [ReceivePacket, handleFrame], ?_⟩
  intro h1 h2 h3
  have h4 : ¬ maxPackets ≤ s.packetCount := by omega
  simp [ReceivePacket, handleFrame, fire, SendPacket, h1, h2, h4]

theorem sw_ack_sets_flag_only_witness :
    (sysRun 5 [SysEvent.timer, SysEvent.deliverData]).st.stopped = false ∧
    0 < (sysRun 5 [SysEvent.timer, SysEvent.deliverData]).st.scheduled ∧
    (sysRun 5 [SysEvent.timer, SysEvent.deliverData]).st.packetCount < 5 ∧
    (fire 5 (ReceivePacket [1] (sysRun 5 [SysEvent.timer, SysEvent.deliverData]).st)).dataOut
      = (sysRun 5 [SysEvent.timer, SysEvent.deliverData]).st.dataOut
        ++ [(sysRun 5 [SysEvent.timer, SysEvent.deliverData]).st.seqNum] :=
  ⟨by decide, by decide, by decide,
   ((sw_ack_sets_flag_only 5 (sysRun 5 [SysEvent.timer, SysEvent.deliverData]).st).2
     (by decide) (by decide) (by decide)).1⟩

/-- C17, as stated, fails: with DATA frame 0 outstanding and four packets still to send,
processing the ACK sends nothing: one DATA frame has been sent before it and one after. -/
theorem sw_ack_refill_counterexample :
    (sysRun 5 [SysEvent.timer, SysEvent.deliverData]).st.ackReceived = false ∧
    (sysRun 5 [SysEvent.timer, SysEvent.deliverData]).st.packetCount = 1 ∧
    (sysRun 5 [SysEvent.timer, SysEvent.deliverData]).st.dataOut = [0] ∧
    (sysRun 5 [SysEvent.timer, SysEvent.deliverData, SysEvent.deliverAck]).st.ackReceived
      = true ∧
    (sysRun 5 [SysEvent.timer, SysEvent.deliverData, SysEvent.deliverAck]).st.dataOut = [0] := by
  decide

end StopAndWait

/-! ## Go-Back-N: receiver, base and range of sequence numbers -/

namespace GoBackN

/-- C14 (amended). Go-Back-N receiver: for every receiver state and every DATA frame,
whatever its sequence number (one greater than the next in-order sequence number
included), the receiver emits the ACK for that sequence number, logs the frame as
received and increments `packetCount` (mod 2^32); the sender's variables are unchanged. -/
theorem gbn_receiver_acks_every_frame (cfg : Config) (s : State) (q : Nat) :
    (ReceivePacket cfg [{ type := 0, seqNum := q }] s).ackOut = s.ackOut ++ [q] ∧
    (ReceivePacket cfg [{ type := 0, seqNum := q }] s).rxLog = s.rxLog ++ [q] ∧
    (ReceivePacket cfg [{ type := 0, seqNum := q }] s).packetCount
      = wrap32 (s.packetCount + 1) ∧
    (ReceivePacket cfg [{ type := 0, seqNum := q }] s).baseSeqNum = s.baseSeqNum ∧
    (ReceivePacket cfg [{ type := 0, seqNum := q }] s).nextSeqNum = s.nextSeqNum ∧
    (ReceivePacket cfg [{ type := 0, seqNum := q }] s).dataOut = s.dataOut := by
  simp [ReceivePacket, handleFrame]

/-- C14, as stated, fails: at program start the receiver has received nothing, so the
next in-order sequence number is 0; the DATA frame with sequence number 3 is acknowledged
and counted all the same. -/
theorem gbn_receiver_out_of_order_counterexample :
    init.packetCount = 0 ∧ init.rxLog = [] ∧ init.ackOut = [] ∧
    (ReceivePacket defaultConfig [{ type := 0, seqNum := 3 }] init).ackOut = [3] ∧
    (ReceivePacket defaultConfig [{ type := 0, seqNum := 3 }] init).packetCount = 1 ∧
    (ReceivePacket defaultConfig [{ type := 0, seqNum := 3 }] init).rxLog = [3] := by
  decide

/-- C19 (amended). Go-Back-N base is non-decreasing: for every sender state and every
received ACK frame carrying a sequence number below `2^32 − 1`, `baseSeqNum` after the
handler is greater than or equal to `baseSeqNum` before it. -/
theorem gbn_base_nondecreasing (cfg : Config) (s : State) (a : Nat) (ha : a < 4294967295) :
    s.baseSeqNum ≤ (step cfg s (Event.ack a)).baseSeqNum := by
  rw [gbn_step_ack_eq]
  obtain ⟨c1, -, -, -⟩ := gbn_afterCancel_window s a
  have hb : (advanceBase s a).baseSeqNum = a + 1 := by
    show wrap32 (a + 1) = a + 1
    exact gbn_wrap32_small (by omega)
  split_ifs with h1 h2
  · obtain ⟨w1, -, -, -⟩ := gbn_sendWindowLoop_window cfg
      (cfg.maxPackets - (advanceBase s a).nextSeqNum) (advanceBase s a)
    show s.baseSeqNum ≤ (sendWindowLoop cfg _ (advanceBase s a)).baseSeqNum
    omega
  · omega
  · omega

theorem gbn_base_nondecreasing_witness :
    (7 : Nat) < 4294967295 ∧
    (run defaultConfig [Event.sendWindow, Event.ack 3]).baseSeqNum
      ≤ (step defaultConfig (run defaultConfig [Event.sendWindow, Event.ack 3])
          (Event.ack 7)).baseSeqNum ∧
    (step defaultConfig (run defaultConfig [Event.sendWindow, Event.ack 3])
      (Event.ack 7)).baseSeqNum = 8 :=
  ⟨by decide,
   gbn_base_nondecreasing defaultConfig (run defaultConfig [Event.sendWindow, Event.ack 3]) 7
     (by decide),
   by decide⟩

/-- C19, as stated, fails: with `baseSeqNum = 4`, the ACK frame carrying `2^32 − 1`
passes the test `ackNum >= baseSeqNum` and `ackNum + 1` wraps, so `baseSeqNum` becomes 0. -/
theorem gbn_base_wraps_counterexample :
    (run defaultConfig [Event.sendWindow, Event.ack 3]).baseSeqNum = 4 ∧
    (step defaultConfig (run defaultConfig [Event.sendWindow, Event.ack 3])
      (Event.ack 4294967295)).baseSeqNum = 0 ∧
    ¬ ((run defaultConfig [Event.sendWindow, Event.ack 3]).baseSeqNum
      ≤ (step defaultConfig (run defaultConfig [Event.sendWindow, Event.ack 3])
          (Event.ack 4294967295)).baseSeqNum) := by
  decide

theorem gbn_afterCancel_dataOut (s : State) (a : Nat) :
    (afterCancel s a).dataOut = s.dataOut := (gbn_afterCancel_window s a).2.2.1

theorem gbn_step_dataOut (cfg : Config) (s : State) (e : Event)
    (h : ∀ x ∈ s.dataOut, x < cfg.maxPackets) :
    ∀ x ∈ (step cfg s e).dataOut, x < cfg.maxPackets := by
  have keep : ∀ t : State, (∀ x ∈ t.dataOut, x ∈ s.dataOut ∨ x < cfg.maxPackets) →
      ∀ x ∈ t.dataOut, x < cfg.maxPackets := by
    intro t ht x hx
    rcases ht x hx with h1 | h1
    · exact h x h1
    · exact h1
  cases e with
  | sendWindow =>
    exact keep _ (gbn_sendWindowLoop_logs cfg (cfg.maxPackets - s.nextSeqNum) s).2.2.2
  | ack a =>
    rw [gbn_step_ack_eq]
    have hA : (advanceBase s a).dataOut = s.dataOut := gbn_afterCancel_dataOut s a
    split_ifs
    · apply keep
      intro x hx
      have := (gbn_sendWindowLoop_logs cfg (cfg.maxPackets - (advanceBase s a).nextSeqNum)
        (advanceBase s a)).2.2.2 x hx
      rw [hA] at this
      exact this
    · intro x hx
      rw [hA] at hx
      exact h x hx
    · intro x hx
      rw [gbn_afterCancel_dataOut] at hx
      exact h x hx
  | timeout uid =>
    simp only [step, fire]
    cases s.pending.find? (fun e => e.1 = uid) with
    | none => exact h
    | some e =>
      exact keep _ (gbn_timeoutLoop_logs cfg (cfg.maxPackets - (cancel uid s).baseSeqNum)
        (cancel uid s).baseSeqNum
        { cancel uid s with nextSeqNum := (cancel uid s).baseSeqNum }).2.2.2

theorem gbn_run_dataOut (cfg : Config) (evs : List Event) :
    ∀ x ∈ (run cfg evs).dataOut, x < cfg.maxPackets := by
  induction evs using List.reverseRecOn with
  | nil =>
    intro x hx
    simp [run, init] at hx
  | append_singleton l e ih =>
    rw [gbn_run_snoc]
    exact gbn_step_dataOut cfg _ e ih

end GoBackN

/-! ## Selective-Repeat: range of sequence numbers -/

namespace SelectiveRepeat

theorem sr_SendPacket_inRange (cfg : Config) (i : Nat) (s : State) (hi : i < cfg.maxPackets)
    (h : InRange cfg s) : InRange cfg (SendPacket i s) := by
  obtain ⟨h1, h2⟩ := h
  refine ⟨?_, ?_⟩
  · intro x hx
    simp only [SendPacket, List.mem_append, List.mem_singleton] at hx
    rcases hx with hx | hx
    · exact h1 x hx
    · rw [hx]
      exact hi
  · intro e he
    simp only [SendPacket, List.mem_append, List.mem_singleton] at he
    rcases he with he | he
    · exact h2 e he
    · rw [he]
      exact hi

theorem sr_cancel_inRange (cfg : Config) (id : Nat) (s : State) (h : InRange cfg s) :
    InRange cfg (cancel id s) := by
  obtain ⟨h1, h2⟩ := h
  refine ⟨h1, ?_⟩
  intro e he
  simp only [cancel, List.mem_filter] at he
  exact h2 e he.1

theorem sr_sendWindowLoop_inRange (cfg : Config) (fuel : Nat) (s : State)
    (h : InRange cfg s) : InRange cfg (sendWindowLoop cfg fuel s) := by
  induction fuel generalizing s with
  | zero => exact h
  | succ n ih =>
    simp only [sendWindowLoop]
    split_ifs with hg
    · exact ih (sendNext s) (sr_SendPacket_inRange cfg s.nextSeq s hg.2 h)
    · exact h

theorem sr_afterCancel_inRange (cfg : Config) (s : State) (a : Nat) (h : InRange cfg s) :
    InRange cfg (afterCancel s a) := by
  unfold afterCancel
  cases ht : s.timers a with
  | none => exact h
  | some id =>
    have h' : InRange cfg
        { s with ackReceived := (fun k => if k = a then true else s.ackReceived k) } := h
    exact sr_cancel_inRange cfg id _ h'

theorem sr_step_inRange (cfg : Config) (s : State) (e : Event) (h : InRange cfg s) :
    InRange cfg (step cfg s e) := by
  cases e with
  | sendWindow => exact sr_sendWindowLoop_inRange cfg _ s h
  | ack a =>
    rw [sr_step_ack_eq]
    have hA := sr_afterCancel_inRange cfg s a h
    split_ifs
    · exact sr_sendWindowLoop_inRange cfg _ _ ((sr_slideLoop_rest cfg _ _).2.2.2.2 cfg hA)
    · exact hA
  | timeout uid =>
    simp only [step, fire]
    cases hf : s.pending.find? (fun e => e.1 = uid) with
    | none => exact h
    | some e =>
      have hmem : e ∈ s.pending := List.mem_of_find?_eq_some hf
      exact sr_SendPacket_inRange cfg e.2 _ (h.2 e hmem) (sr_cancel_inRange cfg uid s h)

theorem sr_run_inRange (cfg : Config) (evs : List Event) : InRange cfg (run cfg evs) := by
  induction evs using List.reverseRecOn with
  | nil =>
    refine ⟨?_, ?_⟩
    · intro x hx
      simp [run, init] at hx
    · intro e he
      simp [run, init] at he
  | append_singleton l e ih =>
    rw [sr_run_snoc]
    exact sr_step_inRange cfg _ e ih

theorem sr_ack_slide_witness :
    defaultConfig.maxPackets + defaultConfig.windowSize < 4294967296 ∧
    0 = (run defaultConfig [Event.sendWindow, Event.ack 1]).baseSeq ∧
    (step defaultConfig (run defaultConfig [Event.sendWindow, Event.ack 1])
      (Event.ack 0)).nextSeq
      = max (run defaultConfig [Event.sendWindow, Event.ack 1]).nextSeq
          (min ((step defaultConfig (run defaultConfig [Event.sendWindow, Event.ack 1])
            (Event.ack 0)).baseSeq + defaultConfig.windowSize) defaultConfig.maxPackets) ∧
    (step defaultConfig (run defaultConfig [Event.sendWindow, Event.ack 1])
      (Event.ack 0)).baseSeq = 2 ∧
    (step defaultConfig (run defaultConfig [Event.sendWindow, Event.ack 1])
      (Event.ack 0)).dataOut = [0, 1, 2, 3, 4, 5] :=
  ⟨by decide, by decide,
   ((sr_ack_slide defaultConfig (by decide) [Event.sendWindow, Event.ack 1] 0).2.2.1
     (by decide)).2.2.2.1,
   by decide, by decide⟩

end SelectiveRepeat

/-! ## Range of the sequence numbers sent -/

/-- C20. Senders never transmit beyond the configured range: in every reachable state of
the Go-Back-N sender and of the Selective-Repeat sender (any sequence of `SendWindow`
calls, ACK frames with arbitrary sequence numbers, and timeout firings), every DATA frame
sent so far carries a sequence number strictly less than `maxPackets`. -/
theorem data_frames_below_maxPackets (cfg : Config) (gevs sevs : List Event) :
    (∀ x ∈ (GoBackN.run cfg gevs).dataOut, x < cfg.maxPackets) ∧
    (∀ x ∈ (SelectiveRepeat.run cfg sevs).dataOut, x < cfg.maxPackets) :=
  ⟨GoBackN.gbn_run_dataOut cfg gevs, (SelectiveRepeat.sr_run_inRange cfg sevs).1⟩

theorem data_frames_below_maxPackets_witness :
    (13 ∈ (GoBackN.run defaultConfig [Event.sendWindow, Event.ack 9, Event.timeout 0]).dataOut ∧
      13 < defaultConfig.maxPackets) ∧
    (4 ∈ (SelectiveRepeat.run defaultConfig [Event.sendWindow, Event.ack 0]).dataOut ∧
      4 < defaultConfig.maxPackets) :=
  ⟨⟨by decide, (data_frames_below_maxPackets defaultConfig
      [Event.sendWindow, Event.ack 9, Event.timeout 0] []).1 13 (by decide)⟩,
   ⟨by decide, (data_frames_below_maxPackets defaultConfig []
      [Event.sendWindow, Event.ack 0]).2 4 (by decide)⟩⟩
